import Mathlib

/-!
Shallow embedding of the h3 grid-traversal core (h3tests/common): the
bit-packed cell index and its field algebra (h3Index.c), the digit rotation
algebra (coordijk.c), the neighbor-stepping algorithm with its Class II /
Class III transition tables (algos.c), the edge-tracing hash insertion
(`_getEdgeHexagons` in algos.c) and the linked-geo counting utilities
(linkedGeo.c).

Machine integers (`uint64_t H3Index`, C `int`) are embedded as `Nat` / `Int`
with explicit reduction modulo `2 ^ 64` where the C code relies on 64-bit
wrap-around (the `~`/`<<` mask arithmetic).  Fallible functions return
`Except H3Error`.  The base-cell adjacency tables and metadata predicates
(baseCells.h / baseCells.c) are not part of the sources under verification;
following the specification they are treated as an external collaborator and
abstracted as a `BaseCellService` parameter.
-/

namespace H3Spec

/-- Error codes used by the embedded core (subset of `H3Error` used by the
    embedded functions; `E_SUCCESS` is represented by `Except.ok`). -/
inductive H3Error where
  | E_FAILED
  | E_CELL_INVALID
  | E_PENTAGON
deriving DecidableEq, Repr

instance exceptDecidableEq {ε α : Type} [DecidableEq ε] [DecidableEq α] :
    DecidableEq (Except ε α) := fun a b =>
  match a, b with
  | .error x, .error y =>
      if h : x = y then isTrue (congrArg Except.error h)
      else isFalse (fun hc => by cases hc; exact h rfl)
  | .error _, .ok _ => isFalse (fun hc => Except.noConfusion hc)
  | .ok _, .error _ => isFalse (fun hc => Except.noConfusion hc)
  | .ok x, .ok y =>
      if h : x = y then isTrue (congrArg Except.ok h)
      else isFalse (fun hc => by cases hc; exact h rfl)

/-- An H3 cell index: a 64-bit word, embedded as a `Nat` that the operations
    keep below `2 ^ 64`. -/
abbrev H3Index := Nat

/-- Modelled from the spec: the bit layout constants of the cell index come
    from h3Index.h, which is not under src/.  The spec fixes a fixed-width
    unsigned bitfield with a mode field, a resolution field (0..15), a base
    cell field (0..121, 7 bits) and 15 ordered 3-bit digit slots for
    resolution levels 1..15; the digit for level r occupies the 3-bit window
    at offset (15 - r) * 3, digits fill the low 45 bits, the base cell the
    next 7 bits, the resolution 4 bits at offset 52 and the mode 4 bits at
    offset 59. -/
def MAX_H3_RES : Nat := 15

/-- Modelled from the spec: bits per digit slot (see `MAX_H3_RES`). -/
def H3_PER_DIGIT_OFFSET : Nat := 3

/-- Modelled from the spec: offset of the base cell field (see `MAX_H3_RES`). -/
def H3_BC_OFFSET : Nat := 45

/-- Modelled from the spec: offset of the resolution field (see `MAX_H3_RES`). -/
def H3_RES_OFFSET : Nat := 52

/-- Modelled from the spec: offset of the mode field (see `MAX_H3_RES`). -/
def H3_MODE_OFFSET : Nat := 59

/-- Modelled from the spec: the mode value tagging cell indexes. -/
def H3_CELL_MODE : Nat := 1

/-- Modelled from the spec: there are 122 top-level base cells. -/
def NUM_BASE_CELLS : Nat := 122

/-- Modelled from the spec: the invalid-sentinel value of the 7-bit base cell
    field returned by the adjacency table for a pentagon's missing k-axis
    neighbor. -/
def INVALID_BASE_CELL : Nat := 127

/-- Modelled from the spec: the initial word used by `setH3Index`; the spec
    states that digit slots beyond the cell's resolution hold the center/zero
    sentinel, so the word starts as all zero bits. -/
def H3_INIT : Nat := 0

/-- 64-bit bitwise complement (C `~` on `uint64_t`). -/
def not64 (m : Nat) : Nat := (2 ^ 64 - 1) ^^^ m

/-- 64-bit left shift (C `<<` on `uint64_t`, dropping bits shifted past 63). -/
def shl64 (m k : Nat) : Nat := (m <<< k) % 2 ^ 64

/-- The shape shared by the C field-update macros: clear the `width`-bit
    window at `off` and or in the new value. -/
def maskField (off width h v : Nat) : Nat :=
  (h &&& not64 ((2 ^ width - 1) <<< off)) ||| (v <<< off)

/-- The shape shared by the C field-read macros: shift down and mask. -/
def getField (off width h : Nat) : Nat := (h >>> off) &&& (2 ^ width - 1)

/-- Bit offset of the digit slot for resolution level `r` (as in the
    H3_SET_INDEX_DIGIT / H3_GET_INDEX_DIGIT macros). -/
def digitOffset (r : Nat) : Nat := (MAX_H3_RES - r) * H3_PER_DIGIT_OFFSET

def H3_GET_INDEX_DIGIT (h r : Nat) : Nat := getField (digitOffset r) 3 h

def H3_SET_INDEX_DIGIT (h r d : Nat) : Nat := maskField (digitOffset r) 3 h d

def H3_GET_RESOLUTION (h : Nat) : Nat := getField H3_RES_OFFSET 4 h

def H3_SET_RESOLUTION (h res : Nat) : Nat := maskField H3_RES_OFFSET 4 h res

def H3_GET_BASE_CELL (h : Nat) : Nat := getField H3_BC_OFFSET 7 h

def H3_SET_BASE_CELL (h bc : Nat) : Nat := maskField H3_BC_OFFSET 7 h bc

def H3_GET_MODE (h : Nat) : Nat := getField H3_MODE_OFFSET 4 h

def H3_SET_MODE (h m : Nat) : Nat := maskField H3_MODE_OFFSET 4 h m

/-- Modelled from the spec: the `Direction` enumeration of coordijk.h is not
    under src/; the spec fixes the order CENTER, K, J, JK, I, IK, IJ plus an
    INVALID sentinel, which the transition tables index by value 0..6. -/
def CENTER_DIGIT : Nat := 0

def K_AXES_DIGIT : Nat := 1

def J_AXES_DIGIT : Nat := 2

def JK_AXES_DIGIT : Nat := 3

def I_AXES_DIGIT : Nat := 4

def IK_AXES_DIGIT : Nat := 5

def IJ_AXES_DIGIT : Nat := 6

def INVALID_DIGIT : Nat := 7

/-- coordijk.c `_rotate60ccw`: rotates an indexing digit 60 degrees
    counter-clockwise; any other value is returned unchanged. -/
def _rotate60ccw (digit : Nat) : Nat :=
  if digit = K_AXES_DIGIT then IK_AXES_DIGIT
  else if digit = IK_AXES_DIGIT then I_AXES_DIGIT
  else if digit = I_AXES_DIGIT then IJ_AXES_DIGIT
  else if digit = IJ_AXES_DIGIT then J_AXES_DIGIT
  else if digit = J_AXES_DIGIT then JK_AXES_DIGIT
  else if digit = JK_AXES_DIGIT then K_AXES_DIGIT
  else digit

/-- coordijk.c `_rotate60cw`: rotates an indexing digit 60 degrees clockwise;
    any other value is returned unchanged. -/
def _rotate60cw (digit : Nat) : Nat :=
  if digit = K_AXES_DIGIT then JK_AXES_DIGIT
  else if digit = JK_AXES_DIGIT then J_AXES_DIGIT
  else if digit = J_AXES_DIGIT then IJ_AXES_DIGIT
  else if digit = IJ_AXES_DIGIT then I_AXES_DIGIT
  else if digit = I_AXES_DIGIT then IK_AXES_DIGIT
  else if digit = IK_AXES_DIGIT then K_AXES_DIGIT
  else digit

/-- The digit loop shared by `setH3Index` (constant fill) and the whole-index
    rotations of h3Index.c: apply `f` to the digit at each resolution level
    `r, r+1, ...`, for `n` levels (the C loops run `r = 1 .. res`, so the
    callers pass `r = 1` and `n = res`). -/
def digitLoopAux (f : Nat → Nat) : Nat → Nat → Nat → Nat
  | h, _, 0 => h
  | h, r, n + 1 =>
      digitLoopAux f (H3_SET_INDEX_DIGIT h r (f (H3_GET_INDEX_DIGIT h r))) (r + 1) n

/-- h3Index.c `setH3Index`: initialize an index at `res` on `baseCell` with
    every digit of levels 1..res set to `initDigit`. -/
def setH3Index (res baseCell initDigit : Nat) : H3Index :=
  digitLoopAux (fun _ => initDigit)
    (H3_SET_BASE_CELL (H3_SET_RESOLUTION (H3_SET_MODE H3_INIT H3_CELL_MODE) res) baseCell)
    1 res

/-- h3Index.c `_zeroIndexDigits`: zero out index digits from `start` to
    `end'` inclusive; a no-op if `start > end'`. -/
def _zeroIndexDigits (h : H3Index) (start end' : Nat) : H3Index :=
  if start > end' then h
  else
    let m1 := not64 0
    let m2 := shl64 m1 (H3_PER_DIGIT_OFFSET * (end' - start + 1))
    let m3 := not64 m2
    let m4 := shl64 m3 (H3_PER_DIGIT_OFFSET * (MAX_H3_RES - end'))
    let m5 := not64 m4
    h &&& m5

/-- The scan loop of `_h3LeadingNonZeroDigit`: return the first non-zero
    digit among levels `r, r+1, ...` (`n` levels), else CENTER. -/
def leadingAux (h : Nat) : Nat → Nat → Nat
  | _, 0 => CENTER_DIGIT
  | r, n + 1 =>
      if H3_GET_INDEX_DIGIT h r ≠ 0 then H3_GET_INDEX_DIGIT h r
      else leadingAux h (r + 1) n

/-- h3Index.c `_h3LeadingNonZeroDigit`: the coarsest non-zero digit of the
    index, or CENTER if all digits are zero. -/
def _h3LeadingNonZeroDigit (h : H3Index) : Nat :=
  leadingAux h 1 (H3_GET_RESOLUTION h)

/-- h3Index.c `_h3Rotate60ccw`: rotate every digit of the index 60 degrees
    counter-clockwise. -/
def _h3Rotate60ccw (h : H3Index) : H3Index :=
  digitLoopAux _rotate60ccw h 1 (H3_GET_RESOLUTION h)

/-- h3Index.c `_h3Rotate60cw`: rotate every digit of the index 60 degrees
    clockwise. -/
def _h3Rotate60cw (h : H3Index) : H3Index :=
  digitLoopAux _rotate60cw h 1 (H3_GET_RESOLUTION h)

/-- The loop of the pentagonal whole-index rotations of h3Index.c: rotate the
    digit at each level with `dRot`, and at the first level whose rotated
    digit is non-zero apply the whole-index rotation `iRot` once if the
    leading non-zero digit became K (the deleted k-axes adjustment). -/
def pentLoopAux (dRot : Nat → Nat) (iRot : Nat → Nat) :
    Nat → Nat → Bool → Nat → Nat
  | h, _, _, 0 => h
  | h, r, foundFirstNonZeroDigit, n + 1 =>
      let h1 := H3_SET_INDEX_DIGIT h r (dRot (H3_GET_INDEX_DIGIT h r))
      if foundFirstNonZeroDigit = false ∧ H3_GET_INDEX_DIGIT h1 r ≠ 0 then
        let h2 := if _h3LeadingNonZeroDigit h1 = K_AXES_DIGIT then iRot h1 else h1
        pentLoopAux dRot iRot h2 (r + 1) true n
      else pentLoopAux dRot iRot h1 (r + 1) foundFirstNonZeroDigit n

/-- h3Index.c `_h3RotatePent60ccw`: rotate an index 60 degrees
    counter-clockwise about a pentagonal center. -/
def _h3RotatePent60ccw (h : H3Index) : H3Index :=
  pentLoopAux _rotate60ccw _h3Rotate60ccw h 1 false (H3_GET_RESOLUTION h)

/-- h3Index.c `_h3RotatePent60cw`: rotate an index 60 degrees clockwise about
    a pentagonal center. -/
def _h3RotatePent60cw (h : H3Index) : H3Index :=
  pentLoopAux _rotate60cw _h3Rotate60cw h 1 false (H3_GET_RESOLUTION h)

/-- h3Index.c `isResolutionClassIII`: odd resolutions are Class III (returns
    the C truthiness value `res % 2`). -/
def isResolutionClassIII (res : Nat) : Nat := res % 2

/-- algos.c `NEW_DIGIT_II`: new digit when traversing along class II grids
    (current digit, then direction). -/
def NEW_DIGIT_II : List (List Nat) :=
  [[CENTER_DIGIT, K_AXES_DIGIT, J_AXES_DIGIT, JK_AXES_DIGIT, I_AXES_DIGIT,
    IK_AXES_DIGIT, IJ_AXES_DIGIT],
   [K_AXES_DIGIT, I_AXES_DIGIT, JK_AXES_DIGIT, IJ_AXES_DIGIT, IK_AXES_DIGIT,
    J_AXES_DIGIT, CENTER_DIGIT],
   [J_AXES_DIGIT, JK_AXES_DIGIT, K_AXES_DIGIT, I_AXES_DIGIT, IJ_AXES_DIGIT,
    CENTER_DIGIT, IK_AXES_DIGIT],
   [JK_AXES_DIGIT, IJ_AXES_DIGIT, I_AXES_DIGIT, IK_AXES_DIGIT, CENTER_DIGIT,
    K_AXES_DIGIT, J_AXES_DIGIT],
   [I_AXES_DIGIT, IK_AXES_DIGIT, IJ_AXES_DIGIT, CENTER_DIGIT, J_AXES_DIGIT,
    JK_AXES_DIGIT, K_AXES_DIGIT],
   [IK_AXES_DIGIT, J_AXES_DIGIT, CENTER_DIGIT, K_AXES_DIGIT, JK_AXES_DIGIT,
    IJ_AXES_DIGIT, I_AXES_DIGIT],
   [IJ_AXES_DIGIT, CENTER_DIGIT, IK_AXES_DIGIT, J_AXES_DIGIT, K_AXES_DIGIT,
    I_AXES_DIGIT, JK_AXES_DIGIT]]

/-- algos.c `NEW_ADJUSTMENT_II`: new traversal direction (carry to the next
    coarser level) when traversing along class II grids. -/
def NEW_ADJUSTMENT_II : List (List Nat) :=
  [[CENTER_DIGIT, CENTER_DIGIT, CENTER_DIGIT, CENTER_DIGIT, CENTER_DIGIT,
    CENTER_DIGIT, CENTER_DIGIT],
   [CENTER_DIGIT, K_AXES_DIGIT, CENTER_DIGIT, K_AXES_DIGIT, CENTER_DIGIT,
    IK_AXES_DIGIT, CENTER_DIGIT],
   [CENTER_DIGIT, CENTER_DIGIT, J_AXES_DIGIT, JK_AXES_DIGIT, CENTER_DIGIT,
    CENTER_DIGIT, J_AXES_DIGIT],
   [CENTER_DIGIT, K_AXES_DIGIT, JK_AXES_DIGIT, JK_AXES_DIGIT, CENTER_DIGIT,
    CENTER_DIGIT, CENTER_DIGIT],
   [CENTER_DIGIT, CENTER_DIGIT, CENTER_DIGIT, CENTER_DIGIT, I_AXES_DIGIT,
    I_AXES_DIGIT, IJ_AXES_DIGIT],
   [CENTER_DIGIT, IK_AXES_DIGIT, CENTER_DIGIT, CENTER_DIGIT, I_AXES_DIGIT,
    IK_AXES_DIGIT, CENTER_DIGIT],
   [CENTER_DIGIT, CENTER_DIGIT, J_AXES_DIGIT, CENTER_DIGIT, IJ_AXES_DIGIT,
    CENTER_DIGIT, IJ_AXES_DIGIT]]

/-- algos.c `NEW_DIGIT_III`: new digit when traversing along class III
    grids. -/
def NEW_DIGIT_III : List (List Nat) :=
  [[CENTER_DIGIT, K_AXES_DIGIT, J_AXES_DIGIT, JK_AXES_DIGIT, I_AXES_DIGIT,
    IK_AXES_DIGIT, IJ_AXES_DIGIT],
   [K_AXES_DIGIT, J_AXES_DIGIT, JK_AXES_DIGIT, I_AXES_DIGIT, IK_AXES_DIGIT,
    IJ_AXES_DIGIT, CENTER_DIGIT],
   [J_AXES_DIGIT, JK_AXES_DIGIT, I_AXES_DIGIT, IK_AXES_DIGIT, IJ_AXES_DIGIT,
    CENTER_DIGIT, K_AXES_DIGIT],
   [JK_AXES_DIGIT, I_AXES_DIGIT, IK_AXES_DIGIT, IJ_AXES_DIGIT, CENTER_DIGIT,
    K_AXES_DIGIT, J_AXES_DIGIT],
   [I_AXES_DIGIT, IK_AXES_DIGIT, IJ_AXES_DIGIT, CENTER_DIGIT, K_AXES_DIGIT,
    J_AXES_DIGIT, JK_AXES_DIGIT],
   [IK_AXES_DIGIT, IJ_AXES_DIGIT, CENTER_DIGIT, K_AXES_DIGIT, J_AXES_DIGIT,
    JK_AXES_DIGIT, I_AXES_DIGIT],
   [IJ_AXES_DIGIT, CENTER_DIGIT, K_AXES_DIGIT, J_AXES_DIGIT, JK_AXES_DIGIT,
    I_AXES_DIGIT, IK_AXES_DIGIT]]

/-- algos.c `NEW_ADJUSTMENT_III`: new traversal direction (carry) when
    traversing along class III grids. -/
def NEW_ADJUSTMENT_III : List (List Nat) :=
  [[CENTER_DIGIT, CENTER_DIGIT, CENTER_DIGIT, CENTER_DIGIT, CENTER_DIGIT,
    CENTER_DIGIT, CENTER_DIGIT],
   [CENTER_DIGIT, K_AXES_DIGIT, CENTER_DIGIT, JK_AXES_DIGIT, CENTER_DIGIT,
    K_AXES_DIGIT, CENTER_DIGIT],
   [CENTER_DIGIT, CENTER_DIGIT, J_AXES_DIGIT, J_AXES_DIGIT, CENTER_DIGIT,
    CENTER_DIGIT, IJ_AXES_DIGIT],
   [CENTER_DIGIT, JK_AXES_DIGIT, J_AXES_DIGIT, JK_AXES_DIGIT, CENTER_DIGIT,
    CENTER_DIGIT, CENTER_DIGIT],
   [CENTER_DIGIT, CENTER_DIGIT, CENTER_DIGIT, CENTER_DIGIT, I_AXES_DIGIT,
    IK_AXES_DIGIT, I_AXES_DIGIT],
   [CENTER_DIGIT, K_AXES_DIGIT, CENTER_DIGIT, CENTER_DIGIT, IK_AXES_DIGIT,
    IK_AXES_DIGIT, CENTER_DIGIT],
   [CENTER_DIGIT, CENTER_DIGIT, IJ_AXES_DIGIT, CENTER_DIGIT, I_AXES_DIGIT,
    CENTER_DIGIT, IJ_AXES_DIGIT]]

/-- Two-level table lookup (C `t[oldDigit][dir]`; indices are always in range
    0..6 at the call sites). -/
def lookup2 (t : List (List Nat)) (i j : Nat) : Nat := (t.getD i []).getD j 0

/-- The table-pair selection made at each iteration of the neighbor walk in
    `h3NeighborRotations`: the branch on `isResolutionClassIII(r + 1)` picks
    the (new digit, adjustment) table pair used for the resolution level
    being stepped out of. -/
def tableSelect (level : Nat) : List (List Nat) × List (List Nat) :=
  if isResolutionClassIII level ≠ 0 then (NEW_DIGIT_II, NEW_ADJUSTMENT_II)
  else (NEW_DIGIT_III, NEW_ADJUSTMENT_III)

/-- Modelled from the spec: the base-cell adjacency table and base-cell
    metadata functions live in baseCells.h / baseCells.c, which are not under
    src/.  The spec describes them as an external lookup service:
    `neighbors` is `baseCellNeighbors` (returning a base cell 0..121 or the
    `INVALID_BASE_CELL` sentinel), `ccwRots` is
    `baseCellNeighbor60CCWRots`, `isPentagon` is `_isBaseCellPentagon`,
    `isPolarPentagon` is `_isBaseCellPolarPentagon`, `isCwOffset` is
    `_baseCellIsCwOffset` and `homeFace` is `baseCellData[..].homeFijk.face`. -/
structure BaseCellService where
  neighbors : Nat → Nat → Nat
  ccwRots : Nat → Nat → Nat
  isPentagon : Nat → Bool
  isPolarPentagon : Nat → Bool
  isCwOffset : Nat → Nat → Bool
  homeFace : Nat → Nat

/-- The digit-adjustment loop of `h3NeighborRotations` (the `while (true)`
    loop): the fuel argument is `r + 1` where `r` is the C loop variable, so
    fuel `0` is the `r == -1` base-cell step and fuel `m + 1` processes the
    digit at resolution level `m + 1`.  Returns the updated index, the
    `newRotations` value from the base-cell table (0 when the walk was
    absorbed before reaching resolution 0) and the extra increment applied to
    `*rotations` by the deleted-k-vertex repair (0 or 1). -/
def walkLoop (svc : BaseCellService) (oldBaseCell : Nat) :
    Nat → Nat → Nat → Except H3Error (Nat × Nat × Nat)
  | current, dir, 0 =>
      let c1 := H3_SET_BASE_CELL current (svc.neighbors oldBaseCell dir)
      let newRotations := svc.ccwRots oldBaseCell dir
      if H3_GET_BASE_CELL c1 = INVALID_BASE_CELL then
        -- Adjust for the deleted k vertex at the base cell level: this edge
        -- actually borders a different neighbor.
        let c2 := H3_SET_BASE_CELL c1 (svc.neighbors oldBaseCell IK_AXES_DIGIT)
        let newRotations2 := svc.ccwRots oldBaseCell IK_AXES_DIGIT
        .ok (_h3Rotate60ccw c2, newRotations2, 1)
      else .ok (c1, newRotations, 0)
  | current, dir, m + 1 =>
      let oldDigit := H3_GET_INDEX_DIGIT current (m + 1)
      if oldDigit = INVALID_DIGIT then .error H3Error.E_CELL_INVALID
      else
        let tables := tableSelect (m + 1)
        let newDigit := lookup2 tables.1 oldDigit dir
        let nextDir := lookup2 tables.2 oldDigit dir
        let c1 := H3_SET_INDEX_DIGIT current (m + 1) newDigit
        if nextDir ≠ CENTER_DIGIT then walkLoop svc oldBaseCell c1 nextDir m
        else .ok (c1, 0, 0)

/-- The pentagon deleted-k-subsequence block of `h3NeighborRotations`
    (entered when the new base cell is pentagonal): returns the repaired
    index, the updated `*rotations` and the `alreadyAdjustedKSubsequence`
    flag. -/
def pentagonAdjust (svc : BaseCellService)
    (oldBaseCell newBaseCell oldLeadingDigit current : Nat) (rotations : Int) :
    Except H3Error (Nat × Int × Bool) :=
  if _h3LeadingNonZeroDigit current = K_AXES_DIGIT then
    if oldBaseCell ≠ newBaseCell then
      -- We traversed into the deleted k subsequence of a pentagon base cell
      -- and need to rotate out of it, depending on the cw/ccw offset of the
      -- involved faces.
      if svc.isCwOffset newBaseCell (svc.homeFace oldBaseCell) then
        .ok (_h3Rotate60cw current, rotations, true)
      else .ok (_h3Rotate60ccw current, rotations, true)
    else
      -- We traversed into the deleted k subsequence from within the same
      -- pentagon base cell.
      if oldLeadingDigit = CENTER_DIGIT then .error H3Error.E_PENTAGON
      else if oldLeadingDigit = JK_AXES_DIGIT then
        .ok (_h3Rotate60ccw current, rotations + 1, false)
      else if oldLeadingDigit = IK_AXES_DIGIT then
        .ok (_h3Rotate60cw current, rotations + 5, false)
      else .error H3Error.E_FAILED
  else .ok (current, rotations, false)

/-- The base-cell-orientation block of `h3NeighborRotations` (after the
    pentagonal per-digit rotations were applied): bump `*rotations` for polar
    pentagons and for the distorted 5th neighbor. -/
def polarAdjust (svc : BaseCellService) (oldBaseCell newBaseCell : Nat)
    (alreadyAdjustedKSubsequence : Bool) (current : Nat) (rotations : Int) : Int :=
  if oldBaseCell ≠ newBaseCell then
    if svc.isPolarPentagon newBaseCell then
      if oldBaseCell ≠ 118 ∧ oldBaseCell ≠ 8 ∧
          _h3LeadingNonZeroDigit current ≠ JK_AXES_DIGIT then
        rotations + 1
      else rotations
    else if _h3LeadingNonZeroDigit current = IK_AXES_DIGIT ∧
        alreadyAdjustedKSubsequence = false then
      rotations + 1
    else rotations
  else rotations

/-- algos.c `h3NeighborRotations`: the hexagon index neighboring the origin
    in direction `dirArg`, threading the accumulated rotation count.  The C
    signature passes `rotations` by reference; here the updated count is
    returned alongside the output index. -/
def h3NeighborRotations (svc : BaseCellService) (origin : H3Index)
    (dirArg : Int) (rotationsIn : Int) : Except H3Error (H3Index × Int) :=
  let current := origin
  if dirArg < (CENTER_DIGIT : Int) ∨ ((INVALID_DIGIT : Nat) : Int) ≤ dirArg then
    .error H3Error.E_FAILED
  else
    -- Ensure that rotations is modulo'd by 6 before any possible addition,
    -- to protect against signed integer overflow (C truncated `%`).
    let rotations := rotationsIn.tmod 6
    let dir := Nat.iterate _rotate60ccw rotations.toNat dirArg.toNat
    let oldBaseCell := H3_GET_BASE_CELL current
    if NUM_BASE_CELLS ≤ oldBaseCell then .error H3Error.E_CELL_INVALID
    else
      let oldLeadingDigit := _h3LeadingNonZeroDigit current
      match walkLoop svc oldBaseCell current dir (H3_GET_RESOLUTION current) with
      | .error e => .error e
      | .ok (cur1, newRotations, extra) =>
        let rotations := rotations + (extra : Int)
        let newBaseCell := H3_GET_BASE_CELL cur1
        if svc.isPentagon newBaseCell then
          match pentagonAdjust svc oldBaseCell newBaseCell oldLeadingDigit
              cur1 rotations with
          | .error e => .error e
          | .ok (cur2, rotations2, alreadyAdjusted) =>
            let cur3 := Nat.iterate _h3RotatePent60ccw newRotations cur2
            let rotations3 :=
              polarAdjust svc oldBaseCell newBaseCell alreadyAdjusted cur3 rotations2
            .ok (cur3, (rotations3 + (newRotations : Int)).tmod 6)
        else
          let cur2 := Nat.iterate _h3Rotate60ccw newRotations cur1
          .ok (cur2, (rotations + (newRotations : Int)).tmod 6)

/-- The linear-probe loop of `_getEdgeHexagons` (the `while (found[loc] != 0)`
    loop).  `fuel` is an upper bound on the remaining iterations; the top
    call passes `numHexagons + 2`, which the `loopCount > numHexagons` guard
    makes unreachable, so the fuel-exhausted branch never fires. -/
def probeAux (found : List Nat) (numHexagons pointHex : Nat) :
    Nat → Nat → Nat → Except H3Error Nat
  | _, _, 0 => .error H3Error.E_FAILED
  | loc, loopCount, fuel + 1 =>
      if found.getD loc 0 ≠ 0 then
        if loopCount > numHexagons then .error H3Error.E_FAILED
        else if found.getD loc 0 = pointHex then .ok loc
        else probeAux found numHexagons pointHex ((loc + 1) % numHexagons)
          (loopCount + 1) fuel
      else .ok loc

/-- One hash insertion of `_getEdgeHexagons`: probe from
    `pointHex % numHexagons`; if the cell is already present skip it,
    otherwise store it in the found table and append it to the search
    buffer. -/
def insertHex (numHexagons : Nat) (found search : List Nat) (pointHex : Nat) :
    Except H3Error (List Nat × List Nat) :=
  match probeAux found numHexagons pointHex (pointHex % numHexagons) 0
      (numHexagons + 2) with
  | .error e => .error e
  | .ok loc =>
      if found.getD loc 0 = pointHex then .ok (found, search)
      else .ok (found.set loc pointHex, search ++ [pointHex])

/-- The inner `j` loop of `_getEdgeHexagons`: index each interpolated point
    (already reduced to an `Except` cell value) and insert it. -/
def insertSeq (numHexagons : Nat) :
    List (Except H3Error Nat) → List Nat → List Nat →
    Except H3Error (List Nat × List Nat)
  | [], found, search => .ok (found, search)
  | p :: rest, found, search =>
      match p with
      | .error e => .error e
      | .ok x =>
          match insertHex numHexagons found search x with
          | .error e => .error e
          | .ok (f, s) => insertSeq numHexagons rest f s

/-- The vertex pairs traced by `_getEdgeHexagons`: each vertex with its
    successor, the last vertex wrapping to the first. -/
def edgePairs {α : Type} (verts : List α) : List (α × α) :=
  match verts with
  | [] => []
  | v0 :: _ => verts.zip (verts.drop 1 ++ [v0])

/-- The outer `i` loop of `_getEdgeHexagons` over the vertex pairs. -/
def edgeRun {α : Type} (estimate : α → α → Except H3Error Nat)
    (cellOf : α → α → Nat → Nat → Except H3Error Nat) (numHexagons : Nat) :
    List (α × α) → List Nat → List Nat → Except H3Error (List Nat × List Nat)
  | [], found, search => .ok (found, search)
  | (o, d) :: rest, found, search =>
      match estimate o d with
      | .error e => .error e
      | .ok n =>
          match insertSeq numHexagons ((List.range n).map (cellOf o d n))
              found search with
          | .error e => .error e
          | .ok (f, s) => edgeRun estimate cellOf numHexagons rest f s

/-- algos.c `_getEdgeHexagons`, abstracted over geometry.  Modelled from the
    spec where the collaborators are external: `estimate` stands for
    `lineHexEstimate` on an edge (great-circle floating-point geometry, out
    of scope), and `cellOf o d n j` stands for
    `latLngToCell(interpolate(o, d, n, j), res)` — the floating-point linear
    interpolation of the j-th sample point of the edge followed by the
    external point-indexing primitive.  The vertex type `α` stands for
    `LatLng` (a pair of doubles).  The caller's `search` block and its
    `numSearchHexes` counter are modelled as a list to which new cells are
    appended (the counter is its length). -/
def _getEdgeHexagons {α : Type} (estimate : α → α → Except H3Error Nat)
    (cellOf : α → α → Nat → Nat → Except H3Error Nat) (verts : List α)
    (numHexagons : Nat) (found search : List Nat) :
    Except H3Error (List Nat × List Nat) :=
  edgeRun estimate cellOf numHexagons (edgePairs verts) found search

/-- Read a slot of the found table (C `found[s]`, empty slots hold 0). -/
def foundGet (found : List Nat) (s : Nat) : Nat := found.getD s 0

/-- Membership of a cell value in the found table. -/
def inTable (numHexagons : Nat) (found : List Nat) (x : Nat) : Prop :=
  ∃ s, s < numHexagons ∧ foundGet found s = x

/-- Cyclic probe distance from slot `home` to slot `s` in a table of
    `numHexagons` slots. -/
def probeDist (numHexagons home s : Nat) : Nat :=
  (s + numHexagons - home) % numHexagons

/-- The open-addressing invariant of the found table: non-empty slots hold
    pairwise distinct values, and the linear-probe path from a stored value's
    home slot to its actual slot contains no empty slot. -/
def TableInv (numHexagons : Nat) (found : List Nat) : Prop :=
  (∀ s, s < numHexagons → ∀ t, t < numHexagons → s ≠ t →
    foundGet found s ≠ 0 → foundGet found s ≠ foundGet found t) ∧
  (∀ s, s < numHexagons → foundGet found s ≠ 0 →
    ∀ j, j < probeDist numHexagons (foundGet found s % numHexagons) s →
      foundGet found ((foundGet found s % numHexagons + j) % numHexagons) ≠ 0)

/-- The high bits of the index word (bit 52 and above: resolution, mode and
    reserved bits): `HiPreserved a b` states that `b` is a 64-bit word whose
    high bits agree with those of `a`. -/
def HiPreserved (a b : Nat) : Prop :=
  b < 2 ^ 64 ∧ ∀ i, 52 ≤ i → b.testBit i = a.testBit i

/-- linkedGeo.c chain of `LinkedLatLng` nodes (a singly linked list ending in
    NULL); the vertex payload type `α` stands for the two `double`
    coordinates, which the counting utilities never inspect. -/
inductive LatLngChain (α : Type) where
  | nil : LatLngChain α
  | node (vertex : α) (next : LatLngChain α) : LatLngChain α

/-- linkedGeo.c chain of `LinkedGeoLoop` nodes. -/
inductive GeoLoopChain (α : Type) where
  | nil : GeoLoopChain α
  | node (first : LatLngChain α) (next : GeoLoopChain α) : GeoLoopChain α

/-- linkedGeo.c `LinkedGeoPolygon`: a polygon node holding the head of its
    loop chain and the link to the next polygon. -/
inductive LinkedGeoPolygon (α : Type) where
  | mk (first : GeoLoopChain α) (next : Option (LinkedGeoPolygon α)) :
      LinkedGeoPolygon α

/-- The `first` field of a polygon node. -/
def polygonFirst {α : Type} : LinkedGeoPolygon α → GeoLoopChain α
  | .mk f _ => f

/-- The walk of `countLinkedLoops`: count nodes until the NULL sentinel. -/
def countLoopsAux {α : Type} : GeoLoopChain α → Nat
  | .nil => 0
  | .node _ next => countLoopsAux next + 1

/-- linkedGeo.c `countLinkedLoops`: the number of linked loops in a
    polygon. -/
def countLinkedLoops {α : Type} (polygon : LinkedGeoPolygon α) : Nat :=
  countLoopsAux (polygonFirst polygon)

/-- Build a loop chain from a list of loop payloads (used to state the
    counting property). -/
def loopChainOfList {α : Type} : List (LatLngChain α) → GeoLoopChain α
  | [] => .nil
  | f :: rest => .node f (loopChainOfList rest)

/-- A concrete base-cell service without pentagons, used to instantiate the
    service-parametric theorems on concrete inputs.  It satisfies the
    interface bounds the spec promises (neighbors in 0..121). -/
def svcHex : BaseCellService where
  neighbors := fun bc _ => bc % NUM_BASE_CELLS
  ccwRots := fun _ _ => 0
  isPentagon := fun _ => false
  isPolarPentagon := fun _ => false
  isCwOffset := fun _ _ => true
  homeFace := fun _ => 0

/-- A concrete base-cell service in which base cell 4 is a pentagon (the spec
    states 12 of the 122 base cells are pentagons), used to instantiate the
    pentagon theorems on concrete inputs. -/
def svcPent : BaseCellService where
  neighbors := fun bc _ => bc % NUM_BASE_CELLS
  ccwRots := fun _ _ => 0
  isPentagon := fun bc => bc == 4
  isPolarPentagon := fun _ => false
  isCwOffset := fun _ _ => true
  homeFace := fun _ => 0

/-! ### Bit-level facts about the field macros -/

theorem not64_lt {m : Nat} (hm : m < 2 ^ 64) : not64 m < 2 ^ 64 :=
  Nat.xor_lt_two_pow (by norm_num) hm

theorem testBit_not64 {m : Nat} (hm : m < 2 ^ 64) (i : Nat) :
    (not64 m).testBit i = (decide (i < 64) && !(m.testBit i)) := by
  unfold not64
  rw [Nat.testBit_xor, Nat.testBit_two_pow_sub_one]
  by_cases h : i < 64
  · simp [h]
  · have hm' : m.testBit i = false :=
      Nat.testBit_lt_two_pow
        (lt_of_lt_of_le hm (Nat.pow_le_pow_right (by norm_num) (le_of_not_lt h)))
    simp [h, hm']

theorem testBit_shl64 (m k i : Nat) :
    (shl64 m k).testBit i =
      (decide (i < 64) && (decide (k ≤ i) && m.testBit (i - k))) := by
  unfold shl64
  rw [Nat.testBit_mod_two_pow, Nat.testBit_shiftLeft]

theorem shl64_lt (m k : Nat) : shl64 m k < 2 ^ 64 :=
  Nat.mod_lt _ (by norm_num)

theorem shiftLeft_lt_of_bound {v width off : Nat} (hv : v < 2 ^ width)
    (hw : off + width ≤ 64) : v <<< off < 2 ^ 64 := by
  rw [Nat.shiftLeft_eq]
  calc v * 2 ^ off < 2 ^ width * 2 ^ off :=
        mul_lt_mul_of_pos_right hv (Nat.pos_pow_of_pos off (by norm_num))
    _ = 2 ^ (width + off) := by rw [Nat.pow_add]
    _ ≤ 2 ^ 64 := Nat.pow_le_pow_right (by norm_num) (by omega)

theorem maskField_lt {off width v : Nat} (hw : off + width ≤ 64)
    (hv : v < 2 ^ width) (h : Nat) : maskField off width h v < 2 ^ 64 := by
  unfold maskField
  have h1 : (2 ^ width - 1) <<< off < 2 ^ 64 :=
    shiftLeft_lt_of_bound (Nat.sub_lt (Nat.pos_pow_of_pos width (by norm_num))
      (by norm_num)) hw
  exact Nat.or_lt_two_pow
    (lt_of_le_of_lt (Nat.and_le_right) (not64_lt h1))
    (shiftLeft_lt_of_bound hv hw)

theorem testBit_maskField {off width v : Nat} (hw : off + width ≤ 64)
    (hv : v < 2 ^ width) (h i : Nat) :
    (maskField off width h v).testBit i =
      if off ≤ i ∧ i < off + width then v.testBit (i - off)
      else (h.testBit i && decide (i < 64)) := by
  have h1 : (2 ^ width - 1) <<< off < 2 ^ 64 :=
    shiftLeft_lt_of_bound (Nat.sub_lt (Nat.pos_pow_of_pos width (by norm_num))
      (by norm_num)) hw
  unfold maskField
  rw [Nat.testBit_or, Nat.testBit_and, testBit_not64 h1, Nat.testBit_shiftLeft,
    Nat.testBit_shiftLeft, Nat.testBit_two_pow_sub_one]
  by_cases hlo : off ≤ i
  · by_cases hhi : i < off + width
    · have e1 : decide (i ≥ off) = true := by simp [hlo]
      have e2 : decide (i - off < width) = true := by
        simp; omega
      have e3 : decide (i < 64) = true := by simp; omega
      simp [hlo, hhi, e1, e2, e3]
    · have e2 : decide (i - off < width) = false := by simp; omega
      have e4 : v.testBit (i - off) = false :=
        Nat.testBit_lt_two_pow
          (lt_of_lt_of_le hv (Nat.pow_le_pow_right (by norm_num) (by omega)))
      simp [hlo, hhi, e2, e4, Bool.and_comm]
  · have e1 : decide (i ≥ off) = false := by simp; omega
    have : ¬(off ≤ i ∧ i < off + width) := fun hc => hlo hc.1
    simp [this, e1, Bool.and_comm]

theorem testBit_getField (off width h i : Nat) :
    (getField off width h).testBit i =
      (h.testBit (off + i) && decide (i < width)) := by
  unfold getField
  rw [Nat.testBit_and, Nat.testBit_shiftRight, Nat.testBit_two_pow_sub_one]

theorem getField_lt (off width h : Nat) : getField off width h < 2 ^ width :=
  Nat.and_lt_two_pow _
    (Nat.sub_lt (Nat.pos_pow_of_pos width (by norm_num)) (by norm_num))

theorem getField_congr {off width a b : Nat}
    (hbits : ∀ j, j < width → a.testBit (off + j) = b.testBit (off + j)) :
    getField off width a = getField off width b := by
  apply Nat.eq_of_testBit_eq
  intro j
  rw [testBit_getField, testBit_getField]
  by_cases hj : j < width
  · rw [hbits j hj]
  · simp [hj]

theorem getField_maskField_self {off width v : Nat} (hw : off + width ≤ 64)
    (hv : v < 2 ^ width) (h : Nat) :
    getField off width (maskField off width h v) = v := by
  apply Nat.eq_of_testBit_eq
  intro j
  rw [testBit_getField, testBit_maskField hw hv]
  by_cases hj : j < width
  · have hc : off ≤ off + j ∧ off + j < off + width := by omega
    rw [if_pos hc]
    simp [hj, Nat.add_sub_cancel_left]
  · have hvb : v.testBit j = false :=
      Nat.testBit_lt_two_pow
        (lt_of_lt_of_le hv (Nat.pow_le_pow_right (by norm_num) (by omega)))
    simp [hj, hvb]

theorem getField_maskField_disjoint {off width v off' width' : Nat}
    (hw : off + width ≤ 64) (hv : v < 2 ^ width) (hw' : off' + width' ≤ 64)
    (hdisj : off' + width' ≤ off ∨ off + width ≤ off') (h : Nat) :
    getField off' width' (maskField off width h v) = getField off' width' h := by
  apply getField_congr
  intro j hj
  rw [testBit_maskField hw hv]
  have hc : ¬(off ≤ off' + j ∧ off' + j < off + width) := by omega
  rw [if_neg hc]
  have : decide (off' + j < 64) = true := by simp; omega
  simp [this]

theorem setH3Index_eval (res baseCell initDigit : Nat) :
    setH3Index res baseCell initDigit =
      digitLoopAux (fun _ => initDigit)
        (H3_SET_BASE_CELL
          (H3_SET_RESOLUTION (H3_SET_MODE H3_INIT H3_CELL_MODE) res) baseCell)
        1 res := rfl

/-! ### Digit-slot lemmas -/

theorem digitOffset_eq (r : Nat) : digitOffset r = (15 - r) * 3 := rfl

theorem two_pow_three : (2 : Nat) ^ 3 = 8 := by norm_num

theorem getDigit_lt (h r : Nat) : H3_GET_INDEX_DIGIT h r < 8 := by
  have := getField_lt (digitOffset r) 3 h
  rwa [two_pow_three] at this

theorem getRes_lt (h : Nat) : H3_GET_RESOLUTION h < 16 := by
  have := getField_lt H3_RES_OFFSET 4 h
  norm_num at this
  exact this

theorem getBC_lt (h : Nat) : H3_GET_BASE_CELL h < 128 := by
  have := getField_lt H3_BC_OFFSET 7 h
  norm_num at this
  exact this

theorem setDigit_lt {d : Nat} (h r : Nat) (hd : d < 8) :
    H3_SET_INDEX_DIGIT h r d < 2 ^ 64 :=
  maskField_lt (by rw [digitOffset_eq]; omega) (by rwa [two_pow_three]) h

theorem testBit_setDigit {d : Nat} (h r : Nat) (hd : d < 8) (i : Nat) :
    (H3_SET_INDEX_DIGIT h r d).testBit i =
      if digitOffset r ≤ i ∧ i < digitOffset r + 3 then d.testBit (i - digitOffset r)
      else (h.testBit i && decide (i < 64)) :=
  testBit_maskField (by rw [digitOffset_eq]; omega) (by rwa [two_pow_three]) h i

theorem getDigit_setDigit_self {d : Nat} (h r : Nat) (hd : d < 8) :
    H3_GET_INDEX_DIGIT (H3_SET_INDEX_DIGIT h r d) r = d :=
  getField_maskField_self (by rw [digitOffset_eq]; omega) (by rwa [two_pow_three]) h

theorem getDigit_setDigit_ne {d : Nat} (h r r' : Nat) (hr : 1 ≤ r) (hr15 : r ≤ 15)
    (hr' : 1 ≤ r') (hr'15 : r' ≤ 15) (hne : r ≠ r') (hd : d < 8) :
    H3_GET_INDEX_DIGIT (H3_SET_INDEX_DIGIT h r d) r' = H3_GET_INDEX_DIGIT h r' :=
  getField_maskField_disjoint (by rw [digitOffset_eq]; omega)
    (by rwa [two_pow_three]) (by rw [digitOffset_eq]; omega)
    (by rw [digitOffset_eq, digitOffset_eq]; omega) h

theorem getRes_setDigit {d : Nat} (h r : Nat) (hr : 1 ≤ r) (hd : d < 8) :
    H3_GET_RESOLUTION (H3_SET_INDEX_DIGIT h r d) = H3_GET_RESOLUTION h :=
  getField_maskField_disjoint (by rw [digitOffset_eq]; omega)
    (by rwa [two_pow_three]) (by norm_num [H3_RES_OFFSET])
    (by rw [digitOffset_eq]; right; unfold H3_RES_OFFSET; omega) h

theorem getBC_setDigit {d : Nat} (h r : Nat) (hr : 1 ≤ r) (hd : d < 8) :
    H3_GET_BASE_CELL (H3_SET_INDEX_DIGIT h r d) = H3_GET_BASE_CELL h :=
  getField_maskField_disjoint (by rw [digitOffset_eq]; omega)
    (by rwa [two_pow_three]) (by norm_num [H3_BC_OFFSET])
    (by rw [digitOffset_eq]; right; unfold H3_BC_OFFSET; omega) h

theorem getMode_setDigit {d : Nat} (h r : Nat) (hr : 1 ≤ r) (hd : d < 8) :
    H3_GET_MODE (H3_SET_INDEX_DIGIT h r d) = H3_GET_MODE h :=
  getField_maskField_disjoint (by rw [digitOffset_eq]; omega)
    (by rwa [two_pow_three]) (by norm_num [H3_MODE_OFFSET])
    (by rw [digitOffset_eq]; right; unfold H3_MODE_OFFSET; omega) h

theorem window_arith {k j : Nat} (hk1 : 1 ≤ k) (hk15 : k ≤ 15) (hj : j < 3) :
    digitOffset k + j < 45 ∧ 15 - (digitOffset k + j) / 3 = k ∧
      (digitOffset k + j) % 3 = j := by
  rw [digitOffset_eq]
  omega

theorem window_bit_identity {h k i : Nat} (hi45 : i < 45)
    (hk : 15 - i / 3 = k) :
    (H3_GET_INDEX_DIGIT h k).testBit (i % 3) = h.testBit i := by
  unfold H3_GET_INDEX_DIGIT
  rw [testBit_getField]
  have harg : digitOffset k + i % 3 = i := by
    rw [digitOffset_eq]; omega
  have h3 : decide (i % 3 < 3) = true := by simp; omega
  rw [harg, h3, Bool.and_true]

/-! ### Characterization of the digit loop -/

theorem digitLoopAux_testBit {f : Nat → Nat} (hf : ∀ x, x < 8 → f x < 8) :
    ∀ (n r h : Nat), h < 2 ^ 64 → 1 ≤ r → r + n ≤ 16 → ∀ i,
      (digitLoopAux f h r n).testBit i =
        if i < 45 ∧ r ≤ 15 - i / 3 ∧ 15 - i / 3 < r + n then
          (f (H3_GET_INDEX_DIGIT h (15 - i / 3))).testBit (i % 3)
        else h.testBit i := by
  intro n
  induction n with
  | zero =>
      intro r h hh hr hrn i
      have hcond : ¬(i < 45 ∧ r ≤ 15 - i / 3 ∧ 15 - i / 3 < r) := by omega
      simp [digitLoopAux, hcond]
  | succ n ih =>
      intro r h hh hr hrn i
      have hd : f (H3_GET_INDEX_DIGIT h r) < 8 := hf _ (getDigit_lt h r)
      have hstep : digitLoopAux f h r (n + 1) =
          digitLoopAux f (H3_SET_INDEX_DIGIT h r (f (H3_GET_INDEX_DIGIT h r)))
            (r + 1) n := rfl
      rw [hstep,
        ih (r + 1) _ (setDigit_lt h r hd) (by omega) (by omega) i]
      by_cases hA : i < 45 ∧ r + 1 ≤ 15 - i / 3 ∧ 15 - i / 3 < r + 1 + n
      · have hk1 : 1 ≤ 15 - i / 3 := by omega
        have hk15 : 15 - i / 3 ≤ 15 := by omega
        have hr15 : r ≤ 15 := by omega
        have hne : r ≠ 15 - i / 3 := by omega
        rw [if_pos hA, getDigit_setDigit_ne h r _ hr hr15 hk1 hk15 hne hd]
        have hB : i < 45 ∧ r ≤ 15 - i / 3 ∧ 15 - i / 3 < r + (n + 1) := by omega
        rw [if_pos hB]
      · rw [if_neg hA, testBit_setDigit h r hd i]
        by_cases hwin : digitOffset r ≤ i ∧ i < digitOffset r + 3
        · have hkr : 15 - i / 3 = r ∧ i < 45 := by
            rw [digitOffset_eq] at hwin; omega
          have hsub : i - digitOffset r = i % 3 := by
            rw [digitOffset_eq] at hwin ⊢; omega
          have hB : i < 45 ∧ r ≤ 15 - i / 3 ∧ 15 - i / 3 < r + (n + 1) := by
            omega
          rw [if_pos hwin, hsub, if_pos hB, hkr.1]
        · rw [if_neg hwin]
          have hB : ¬(i < 45 ∧ r ≤ 15 - i / 3 ∧ 15 - i / 3 < r + (n + 1)) := by
            rw [digitOffset_eq] at hwin; omega
          rw [if_neg hB]
          by_cases h64 : i < 64
          · simp [h64]
          · have hfb : h.testBit i = false :=
              Nat.testBit_lt_two_pow
                (lt_of_lt_of_le hh (Nat.pow_le_pow_right (by norm_num) (by omega)))
            simp [h64, hfb]

theorem digitLoopAux_lt {f : Nat → Nat} (hf : ∀ x, x < 8 → f x < 8) :
    ∀ (n r h : Nat), h < 2 ^ 64 → digitLoopAux f h r n < 2 ^ 64 := by
  intro n
  induction n with
  | zero => intro r h hh; exact hh
  | succ n ih =>
      intro r h hh
      exact ih (r + 1) _ (setDigit_lt h r (hf _ (getDigit_lt h r)))

theorem getField_digitLoopAux_high {f : Nat → Nat} (hf : ∀ x, x < 8 → f x < 8)
    {off width n r h : Nat} (hoff : 45 ≤ off) (h64 : off + width ≤ 64)
    (hh : h < 2 ^ 64) (hr : 1 ≤ r) (hrn : r + n ≤ 16) :
    getField off width (digitLoopAux f h r n) = getField off width h := by
  apply getField_congr
  intro j hj
  rw [digitLoopAux_testBit hf n r h hh hr hrn]
  have : ¬(off + j < 45 ∧ r ≤ 15 - (off + j) / 3 ∧ 15 - (off + j) / 3 < r + n) := by
    omega
  rw [if_neg this]

theorem getDigit_digitLoopAux_in {f : Nat → Nat} (hf : ∀ x, x < 8 → f x < 8)
    {n r k h : Nat} (hh : h < 2 ^ 64) (hr : 1 ≤ r) (hrn : r + n ≤ 16)
    (hk1 : 1 ≤ k) (hk15 : k ≤ 15) (hkr : r ≤ k) (hkn : k < r + n) :
    H3_GET_INDEX_DIGIT (digitLoopAux f h r n) k = f (H3_GET_INDEX_DIGIT h k) := by
  apply Nat.eq_of_testBit_eq
  intro j
  unfold H3_GET_INDEX_DIGIT
  rw [testBit_getField]
  by_cases hj : j < 3
  · obtain ⟨hi45, hik, him⟩ := window_arith hk1 hk15 hj
    rw [digitLoopAux_testBit hf n r h hh hr hrn]
    have hcond : digitOffset k + j < 45 ∧ r ≤ 15 - (digitOffset k + j) / 3 ∧
        15 - (digitOffset k + j) / 3 < r + n := by
      rw [hik]; exact ⟨hi45, hkr, hkn⟩
    rw [if_pos hcond, hik, him]
    simp [hj, H3_GET_INDEX_DIGIT]
  · have hlt : f (H3_GET_INDEX_DIGIT h k) < 2 ^ 3 := by
      rw [two_pow_three]; exact hf _ (getDigit_lt h k)
    have hzero : (f (H3_GET_INDEX_DIGIT h k)).testBit j = false :=
      Nat.testBit_lt_two_pow
        (lt_of_lt_of_le hlt (Nat.pow_le_pow_right (by norm_num) (by omega)))
    unfold H3_GET_INDEX_DIGIT at hzero
    simp [hj, hzero]

theorem getDigit_digitLoopAux_out {f : Nat → Nat} (hf : ∀ x, x < 8 → f x < 8)
    {n r k h : Nat} (hh : h < 2 ^ 64) (hr : 1 ≤ r) (hrn : r + n ≤ 16)
    (hk1 : 1 ≤ k) (hk15 : k ≤ 15) (hout : k < r ∨ r + n ≤ k) :
    H3_GET_INDEX_DIGIT (digitLoopAux f h r n) k = H3_GET_INDEX_DIGIT h k := by
  apply Nat.eq_of_testBit_eq
  intro j
  unfold H3_GET_INDEX_DIGIT
  rw [testBit_getField, testBit_getField]
  by_cases hj : j < 3
  · obtain ⟨hi45, hik, _⟩ := window_arith hk1 hk15 hj
    rw [digitLoopAux_testBit hf n r h hh hr hrn]
    have hcond : ¬(digitOffset k + j < 45 ∧ r ≤ 15 - (digitOffset k + j) / 3 ∧
        15 - (digitOffset k + j) / 3 < r + n) := by
      rw [hik]; omega
    rw [if_neg hcond]
  · simp [hj]

/-! ### Whole-index rotation lemmas -/

theorem rotate60ccw_lt_eight : ∀ x, x < 8 → _rotate60ccw x < 8 := by decide

theorem rotate60cw_lt_eight : ∀ x, x < 8 → _rotate60cw x < 8 := by decide

theorem getRes_le_15 (h : Nat) : H3_GET_RESOLUTION h ≤ 15 := by
  have := getRes_lt h; omega

theorem h3Rotate60ccw_lt {h : Nat} (hh : h < 2 ^ 64) : _h3Rotate60ccw h < 2 ^ 64 :=
  digitLoopAux_lt rotate60ccw_lt_eight _ _ _ hh

theorem h3Rotate60cw_lt {h : Nat} (hh : h < 2 ^ 64) : _h3Rotate60cw h < 2 ^ 64 :=
  digitLoopAux_lt rotate60cw_lt_eight _ _ _ hh

theorem getRes_h3Rotate60ccw {h : Nat} (hh : h < 2 ^ 64) :
    H3_GET_RESOLUTION (_h3Rotate60ccw h) = H3_GET_RESOLUTION h := by
  unfold _h3Rotate60ccw H3_GET_RESOLUTION
  exact getField_digitLoopAux_high rotate60ccw_lt_eight
    (by norm_num [H3_RES_OFFSET]) (by norm_num [H3_RES_OFFSET]) hh le_rfl
    (by have := getField_lt H3_RES_OFFSET 4 h; norm_num at this; omega)

theorem getRes_h3Rotate60cw {h : Nat} (hh : h < 2 ^ 64) :
    H3_GET_RESOLUTION (_h3Rotate60cw h) = H3_GET_RESOLUTION h := by
  unfold _h3Rotate60cw H3_GET_RESOLUTION
  exact getField_digitLoopAux_high rotate60cw_lt_eight
    (by norm_num [H3_RES_OFFSET]) (by norm_num [H3_RES_OFFSET]) hh le_rfl
    (by have := getField_lt H3_RES_OFFSET 4 h; norm_num at this; omega)

theorem testBit_h3Rotate60ccw {h : Nat} (hh : h < 2 ^ 64) (i : Nat) :
    (_h3Rotate60ccw h).testBit i =
      if i < 45 ∧ 15 - i / 3 ≤ H3_GET_RESOLUTION h then
        (_rotate60ccw (H3_GET_INDEX_DIGIT h (15 - i / 3))).testBit (i % 3)
      else h.testBit i := by
  unfold _h3Rotate60ccw
  rw [digitLoopAux_testBit rotate60ccw_lt_eight _ _ _ hh le_rfl
    (by have := getRes_lt h; omega) i]
  have hiff : (i < 45 ∧ 1 ≤ 15 - i / 3 ∧ 15 - i / 3 < 1 + H3_GET_RESOLUTION h) ↔
      (i < 45 ∧ 15 - i / 3 ≤ H3_GET_RESOLUTION h) := by omega
  rw [if_congr hiff rfl rfl]

theorem getDigit_h3Rotate60ccw_in {h k : Nat} (hh : h < 2 ^ 64) (hk1 : 1 ≤ k)
    (hkres : k ≤ H3_GET_RESOLUTION h) :
    H3_GET_INDEX_DIGIT (_h3Rotate60ccw h) k =
      _rotate60ccw (H3_GET_INDEX_DIGIT h k) := by
  unfold _h3Rotate60ccw
  exact getDigit_digitLoopAux_in rotate60ccw_lt_eight hh le_rfl
    (by have := getRes_lt h; omega) hk1 (by have := getRes_le_15 h; omega)
    hk1 (by omega)

theorem iterate_h3Rotate60ccw_testBit (n : Nat) :
    ∀ h : Nat, h < 2 ^ 64 → ∀ i,
      (Nat.iterate _h3Rotate60ccw n h).testBit i =
        if i < 45 ∧ 15 - i / 3 ≤ H3_GET_RESOLUTION h then
          (Nat.iterate _rotate60ccw n
            (H3_GET_INDEX_DIGIT h (15 - i / 3))).testBit (i % 3)
        else h.testBit i := by
  induction n with
  | zero =>
      intro h hh i
      by_cases hc : i < 45 ∧ 15 - i / 3 ≤ H3_GET_RESOLUTION h
      · rw [if_pos hc]
        exact (window_bit_identity hc.1 rfl).symm
      · rw [if_neg hc]
        rfl
  | succ n ih =>
      intro h hh i
      show (Nat.iterate _h3Rotate60ccw n (_h3Rotate60ccw h)).testBit i = _
      rw [ih (_h3Rotate60ccw h) (h3Rotate60ccw_lt hh) i, getRes_h3Rotate60ccw hh]
      by_cases hc : i < 45 ∧ 15 - i / 3 ≤ H3_GET_RESOLUTION h
      · have hk1 : 1 ≤ 15 - i / 3 := by omega
        rw [if_pos hc, if_pos hc, getDigit_h3Rotate60ccw_in hh hk1 hc.2]
        rfl
      · rw [if_neg hc, if_neg hc, testBit_h3Rotate60ccw hh, if_neg hc]

theorem rotate60ccw_six_cycle : ∀ d, d < 8 → Nat.iterate _rotate60ccw 6 d = d := by
  decide

/-- C6: for every 64-bit cell index, applying the whole-index
    counterclockwise rotation `_h3Rotate60ccw` six times in succession yields
    the original index. -/
theorem rotateIndex60ccw_six_identity (h : H3Index) (hh : h < 2 ^ 64) :
    _h3Rotate60ccw (_h3Rotate60ccw (_h3Rotate60ccw (_h3Rotate60ccw
      (_h3Rotate60ccw (_h3Rotate60ccw h))))) = h := by
  apply Nat.eq_of_testBit_eq
  intro i
  show (Nat.iterate _h3Rotate60ccw 6 h).testBit i = h.testBit i
  rw [iterate_h3Rotate60ccw_testBit 6 h hh i]
  by_cases hc : i < 45 ∧ 15 - i / 3 ≤ H3_GET_RESOLUTION h
  · rw [if_pos hc, rotate60ccw_six_cycle _ (getDigit_lt h _)]
    exact window_bit_identity hc.1 rfl
  · rw [if_neg hc]

/-- Witness for C6: the identity evaluated on a concrete resolution-5 cell. -/
theorem rotateIndex60ccw_six_identity_witness :
    setH3Index 5 17 3 < 2 ^ 64 ∧
      _h3Rotate60ccw (_h3Rotate60ccw (_h3Rotate60ccw (_h3Rotate60ccw
        (_h3Rotate60ccw (_h3Rotate60ccw (setH3Index 5 17 3)))))) =
        setH3Index 5 17 3 :=
  ⟨by decide, rotateIndex60ccw_six_identity (setH3Index 5 17 3) (by decide)⟩

/-! ### C3: which table pair the walk consults at each level -/

/-- Counterexample to C3: at the even (Class II) resolution level 2, the
    walk's table selection consults the Class III pair, which differs from
    the Class II pair — so the Class II pair is not the one consulted at
    Class II (even) levels. -/
theorem tableSelect_even_level_counterexample :
    tableSelect 2 = (NEW_DIGIT_III, NEW_ADJUSTMENT_III) ∧
      NEW_DIGIT_II ≠ NEW_DIGIT_III ∧ isResolutionClassIII 2 = 0 := by
  exact ⟨by decide, by decide, by decide⟩

/-- C3 (amended): at every iteration of the neighbor walk in
    `h3NeighborRotations`, the Class II table pair (NEW_DIGIT_II /
    NEW_ADJUSTMENT_II) is consulted exactly when the resolution level being
    stepped out of is Class III (odd), and the Class III pair exactly when
    that level is Class II (even). -/
theorem tableSelect_parity (level : Nat) :
    (tableSelect level = (NEW_DIGIT_II, NEW_ADJUSTMENT_II) ↔
      isResolutionClassIII level = 1) ∧
    (tableSelect level = (NEW_DIGIT_III, NEW_ADJUSTMENT_III) ↔
      isResolutionClassIII level = 0) := by
  have hne : (NEW_DIGIT_II, NEW_ADJUSTMENT_II) ≠
      (NEW_DIGIT_III, NEW_ADJUSTMENT_III) := by decide
  rcases Nat.mod_two_eq_zero_or_one level with hpar | hpar
  · have hsel : tableSelect level = (NEW_DIGIT_III, NEW_ADJUSTMENT_III) := by
      unfold tableSelect isResolutionClassIII
      rw [hpar]
      simp
    have hcls : isResolutionClassIII level = 0 := hpar
    rw [hsel, hcls]
    exact ⟨iff_of_false (fun hx => hne hx.symm) (by simp), iff_of_true rfl rfl⟩
  · have hsel : tableSelect level = (NEW_DIGIT_II, NEW_ADJUSTMENT_II) := by
      unfold tableSelect isResolutionClassIII
      rw [hpar]
      simp
    have hcls : isResolutionClassIII level = 1 := hpar
    rw [hsel, hcls]
    exact ⟨iff_of_true rfl rfl, iff_of_false (fun hx => hne hx) (by simp)⟩

/-! ### C9: counting linked loops -/

/-- C9: `countLinkedLoops` returns the number of loop nodes reachable through
    the polygon's loop chain; in particular it returns 3 on a 3-node chain
    and 0 on an empty (null) chain. -/
theorem countLinkedLoops_spec :
    (∀ (α : Type) (loops : List (LatLngChain α)) (rest : Option (LinkedGeoPolygon α)),
      countLinkedLoops (LinkedGeoPolygon.mk (loopChainOfList loops) rest) =
        loops.length) ∧
    countLinkedLoops (LinkedGeoPolygon.mk (α := Unit)
      (.node .nil (.node .nil (.node .nil .nil))) none) = 3 ∧
    countLinkedLoops (LinkedGeoPolygon.mk (α := Unit) .nil none) = 0 := by
  refine ⟨?_, rfl, rfl⟩
  intro α loops rest
  induction loops with
  | nil => rfl
  | cons f r ih =>
      have hr : countLoopsAux (loopChainOfList r) = r.length := ih
      show countLoopsAux (loopChainOfList (f :: r)) = (f :: r).length
      simp [loopChainOfList, countLoopsAux, hr]

/-! ### C7: zeroing a digit range -/

theorem testBit_zeroIndexDigits {h start end' : Nat} (hse : start ≤ end')
    (he : end' ≤ 15) (i : Nat) :
    (_zeroIndexDigits h start end').testBit i =
      if 3 * (15 - end') ≤ i ∧ i < 3 * (16 - start) then false
      else (h.testBit i && decide (i < 64)) := by
  have hrw : _zeroIndexDigits h start end' =
      h &&& not64 (shl64 (not64 (shl64 (not64 0) (3 * (end' - start + 1))))
        (3 * (15 - end'))) := by
    unfold _zeroIndexDigits
    rw [if_neg (by omega)]
    rfl
  rw [hrw]
  set c1 := 3 * (end' - start + 1) with hc1
  set c2 := 3 * (15 - end') with hc2
  have hm1 : ∀ j, (not64 0).testBit j = decide (j < 64) := by
    intro j
    rw [testBit_not64 (by norm_num)]
    simp
  have hm2 : ∀ j, (shl64 (not64 0) c1).testBit j =
      (decide (j < 64) && decide (c1 ≤ j)) := by
    intro j
    rw [testBit_shl64, hm1]
    by_cases hj : j < 64
    · by_cases hcle : c1 ≤ j
      · have hs : j - c1 < 64 := by omega
        simp [hj, hcle, hs]
      · simp [hj, hcle]
    · simp [hj]
  have hm3 : ∀ j, (not64 (shl64 (not64 0) c1)).testBit j =
      (decide (j < 64) && !decide (c1 ≤ j)) := by
    intro j
    rw [testBit_not64 (shl64_lt _ _), hm2]
    by_cases hj : j < 64 <;> simp [hj]
  have hm4 : ∀ j, (shl64 (not64 (shl64 (not64 0) c1)) c2).testBit j =
      (decide (j < 64) && (decide (c2 ≤ j) && !decide (c1 + c2 ≤ j))) := by
    intro j
    rw [testBit_shl64, hm3]
    by_cases hj : j < 64
    · by_cases hcle : c2 ≤ j
      · have hs : j - c2 < 64 := by omega
        by_cases hcc : c1 + c2 ≤ j
        · have hcc' : c1 ≤ j - c2 := by omega
          simp [hj, hcle, hs, hcc, hcc']
        · have hcc' : ¬(c1 ≤ j - c2) := by omega
          simp [hj, hcle, hs, hcc, hcc']
      · simp [hj, hcle]
    · simp [hj]
  have hm5 : ∀ j, (not64 (shl64 (not64 (shl64 (not64 0) c1)) c2)).testBit j =
      (decide (j < 64) && !(decide (c2 ≤ j) && !decide (c1 + c2 ≤ j))) := by
    intro j
    rw [testBit_not64 (shl64_lt _ _), hm4]
    by_cases hj : j < 64 <;> simp [hj]
  rw [Nat.testBit_and, hm5]
  have hsum : c1 + c2 = 3 * (16 - start) := by rw [hc1, hc2]; omega
  by_cases hreg : 3 * (15 - end') ≤ i ∧ i < 3 * (16 - start)
  · rw [if_pos hreg]
    have h1 : c2 ≤ i := hreg.1
    have h2 : ¬(c1 + c2 ≤ i) := by omega
    simp [h1, h2]
  · rw [if_neg hreg]
    by_cases hj : i < 64
    · have hfalse : (decide (c2 ≤ i) && !decide (c1 + c2 ≤ i)) = false := by
        by_cases hcle : c2 ≤ i
        · have : c1 + c2 ≤ i := by omega
          simp [hcle, this]
        · simp [hcle]
      rw [hfalse]
      simp [hj]
    · simp [hj]

/-- C7: `_zeroIndexDigits h start end'` returns `h` unchanged whenever
    `start > end'`; and when `1 ≤ start ≤ end' ≤ 15` it zeroes the digit
    fields at resolution levels start..end' inclusive while leaving every
    other bit of `h` — the mode, resolution and base cell fields and the
    digits outside the range — unchanged. -/
theorem zeroIndexDigits_spec (h start end' : Nat) :
    (start > end' → _zeroIndexDigits h start end' = h) ∧
    (1 ≤ start → start ≤ end' → end' ≤ 15 → h < 2 ^ 64 →
      (∀ r, start ≤ r → r ≤ end' →
        H3_GET_INDEX_DIGIT (_zeroIndexDigits h start end') r = 0) ∧
      (∀ i, i < 64 → ¬(3 * (15 - end') ≤ i ∧ i < 3 * (16 - start)) →
        (_zeroIndexDigits h start end').testBit i = h.testBit i) ∧
      H3_GET_MODE (_zeroIndexDigits h start end') = H3_GET_MODE h ∧
      H3_GET_RESOLUTION (_zeroIndexDigits h start end') = H3_GET_RESOLUTION h ∧
      H3_GET_BASE_CELL (_zeroIndexDigits h start end') = H3_GET_BASE_CELL h ∧
      (∀ r, 1 ≤ r → r ≤ 15 → (r < start ∨ end' < r) →
        H3_GET_INDEX_DIGIT (_zeroIndexDigits h start end') r =
          H3_GET_INDEX_DIGIT h r)) := by
  constructor
  · intro hgt
    unfold _zeroIndexDigits
    rw [if_pos hgt]
  · intro hs hse he hh
    have houtside : ∀ i, i < 64 → ¬(3 * (15 - end') ≤ i ∧ i < 3 * (16 - start)) →
        (_zeroIndexDigits h start end').testBit i = h.testBit i := by
      intro i hi64 hout
      rw [testBit_zeroIndexDigits hse he, if_neg hout]
      simp [hi64]
    have hfield : ∀ off width, 45 ≤ off → off + width ≤ 64 →
        getField off width (_zeroIndexDigits h start end') = getField off width h := by
      intro off width hoff hw
      apply getField_congr
      intro j hj
      apply houtside _ (by omega)
      omega
    refine ⟨?_, houtside, ?_, ?_, ?_, ?_⟩
    · intro r hr1 hr2
      apply Nat.eq_of_testBit_eq
      intro j
      rw [Nat.zero_testBit]
      by_cases hj : j < 3
      · unfold H3_GET_INDEX_DIGIT
        rw [testBit_getField, testBit_zeroIndexDigits hse he]
        have hin : 3 * (15 - end') ≤ digitOffset r + j ∧
            digitOffset r + j < 3 * (16 - start) := by
          rw [digitOffset_eq]; omega
        rw [if_pos hin]
        simp
      · have := getDigit_lt (_zeroIndexDigits h start end') r
        have hb : H3_GET_INDEX_DIGIT (_zeroIndexDigits h start end') r < 2 ^ 3 := by
          rw [two_pow_three]; exact this
        exact Nat.testBit_lt_two_pow
          (lt_of_lt_of_le hb (Nat.pow_le_pow_right (by norm_num) (by omega)))
    · exact hfield H3_MODE_OFFSET 4 (by norm_num [H3_MODE_OFFSET])
        (by norm_num [H3_MODE_OFFSET])
    · exact hfield H3_RES_OFFSET 4 (by norm_num [H3_RES_OFFSET])
        (by norm_num [H3_RES_OFFSET])
    · exact hfield H3_BC_OFFSET 7 (by norm_num [H3_BC_OFFSET])
        (by norm_num [H3_BC_OFFSET])
    · intro r hr1 hr15 hout
      apply getField_congr
      intro j hj
      apply houtside _ (by rw [digitOffset_eq]; omega)
      rw [digitOffset_eq]
      omega

/-- Witness for C7: both branches evaluated concretely — the no-op branch at
    start 5 > end 4, and the zeroing branch on a range of an all-ones word. -/
theorem zeroIndexDigits_spec_witness :
    _zeroIndexDigits (2 ^ 64 - 1) 5 4 = 2 ^ 64 - 1 ∧
      H3_GET_INDEX_DIGIT (_zeroIndexDigits (2 ^ 64 - 1) 2 3) 2 = 0 ∧
      H3_GET_RESOLUTION (_zeroIndexDigits (2 ^ 64 - 1) 2 3) =
        H3_GET_RESOLUTION (2 ^ 64 - 1) ∧
      H3_GET_INDEX_DIGIT (_zeroIndexDigits (2 ^ 64 - 1) 2 3) 4 =
        H3_GET_INDEX_DIGIT (2 ^ 64 - 1) 4 :=
  ⟨(zeroIndexDigits_spec (2 ^ 64 - 1) 5 4).1 (by decide),
   ((zeroIndexDigits_spec (2 ^ 64 - 1) 2 3).2 (by decide) (by decide) (by decide)
     (by decide)).1 2 (by decide) (by decide),
   ((zeroIndexDigits_spec (2 ^ 64 - 1) 2 3).2 (by decide) (by decide) (by decide)
     (by decide)).2.2.2.1,
   ((zeroIndexDigits_spec (2 ^ 64 - 1) 2 3).2 (by decide) (by decide) (by decide)
     (by decide)).2.2.2.2.2 4 (by decide) (by decide) (by decide)⟩

/-! ### C4: the direction guard of h3NeighborRotations -/

/-- Counterexample to C4: the CENTER digit (0) is not one of the six valid
    direction digits K..IJ, yet `h3NeighborRotations` accepts it and succeeds,
    returning the origin itself instead of an error. -/
theorem neighbor_center_direction_counterexample :
    h3NeighborRotations svcHex (setH3Index 1 0 0) 0 0 =
      .ok (setH3Index 1 0 0, 0) ∧
    ¬(1 ≤ (0 : Int) ∧ (0 : Int) ≤ 6) := by
  exact ⟨by decide, by decide⟩

/-- C4 (amended): for every service, origin and rotation count, calling
    `h3NeighborRotations` with a direction argument outside the enum range
    0..6 — negative or at least INVALID_DIGIT (7) — fails with E_FAILED and
    produces no output cell; CENTER (0) is accepted by the guard. -/
theorem neighbor_invalid_direction_fails (svc : BaseCellService)
    (origin : H3Index) (rotations dir : Int) (hdir : dir < 0 ∨ 7 ≤ dir) :
    h3NeighborRotations svc origin dir rotations = .error H3Error.E_FAILED := by
  have hcond : dir < ((CENTER_DIGIT : Nat) : Int) ∨
      ((INVALID_DIGIT : Nat) : Int) ≤ dir := by
    unfold CENTER_DIGIT INVALID_DIGIT
    push_cast
    omega
  unfold h3NeighborRotations
  rw [if_pos hcond]

/-- Witness for C4: the guard theorem evaluated at direction 7 (INVALID). -/
theorem neighbor_invalid_direction_fails_witness :
    ((7 : Int) < 0 ∨ (7 : Int) ≤ 7) ∧
      h3NeighborRotations svcHex (setH3Index 1 0 0) 7 0 =
        .error H3Error.E_FAILED :=
  ⟨Or.inr le_rfl,
   neighbor_invalid_direction_fails svcHex (setH3Index 1 0 0) 0 7
     (Or.inr (by norm_num))⟩

/-! ### C5 / C2: concrete counterexamples on the rotation count and the
    pentagon error -/

/-- Counterexample to C5: with input rotation count -5 (allowed by the claim,
    which covers negative inputs) a successful call stores back -5, which is
    not in the range 0..5 — the C truncated `%` keeps negative values
    negative. -/
theorem neighbor_negative_rotations_counterexample :
    h3NeighborRotations svcHex (setH3Index 1 0 0) 4 (-5) =
      .ok (2 ^ 59 + 2 ^ 52 + 2 ^ 44, -5) ∧
    ¬(0 ≤ (-5 : Int)) := by
  exact ⟨by decide, by decide⟩

/-- Counterexample to C2's uniqueness part: a call on a pentagon center with
    direction JK (3) — not K — and rotation count 1 also yields E_PENTAGON,
    because the rotation count is folded into the direction before the walk;
    so (pentagon center, K, 0 rotations) is not the only input class
    producing that error. -/
theorem pentagon_error_rotated_direction_counterexample :
    h3NeighborRotations svcPent (setH3Index 1 4 0) 3 1 =
      .error H3Error.E_PENTAGON ∧ (3 : Int) ≠ 1 := by
  exact ⟨by decide, by decide⟩

/-! ### Leading-digit lemmas -/

theorem leadingAux_all_zero {h : Nat} :
    ∀ n r, (∀ k, r ≤ k → k < r + n → H3_GET_INDEX_DIGIT h k = 0) →
      leadingAux h r n = CENTER_DIGIT := by
  intro n
  induction n with
  | zero => intro r _; rfl
  | succ n ih =>
      intro r hz
      have h0 : H3_GET_INDEX_DIGIT h r = 0 := hz r le_rfl (by omega)
      simp only [leadingAux]
      rw [if_neg (by simp [h0])]
      exact ih (r + 1) (fun k hk1 hk2 => hz k (by omega) (by omega))

theorem leadingAux_eq_zero_imp {h : Nat} :
    ∀ n r, leadingAux h r n = CENTER_DIGIT →
      ∀ k, r ≤ k → k < r + n → H3_GET_INDEX_DIGIT h k = 0 := by
  intro n
  induction n with
  | zero => intro r _ k h1 h2; omega
  | succ n ih =>
      intro r hlead k h1 h2
      simp only [leadingAux] at hlead
      by_cases hr : H3_GET_INDEX_DIGIT h r ≠ 0
      · rw [if_pos hr] at hlead
        exact absurd hlead hr
      · push_neg at hr
        rw [if_neg (by simp [hr])] at hlead
        rcases Nat.eq_or_lt_of_le h1 with he | hlt
        · rw [← he]; exact hr
        · exact ih (r + 1) hlead k hlt (by omega)

theorem leadingAux_first_nonzero {h : Nat} :
    ∀ n r j, r ≤ j → j < r + n →
      (∀ k, r ≤ k → k < j → H3_GET_INDEX_DIGIT h k = 0) →
      H3_GET_INDEX_DIGIT h j ≠ 0 →
      leadingAux h r n = H3_GET_INDEX_DIGIT h j := by
  intro n
  induction n with
  | zero => intro r j h1 h2; omega
  | succ n ih =>
      intro r j hrj hjn hz hnz
      simp only [leadingAux]
      by_cases hr : H3_GET_INDEX_DIGIT h r ≠ 0
      · rw [if_pos hr]
        have hj : j = r := by
          by_contra hne
          exact hr (hz r le_rfl (by omega))
        rw [hj]
      · rw [if_neg hr]
        push_neg at hr
        have hne : r ≠ j := fun he => hnz (he ▸ hr)
        exact ih (r + 1) j (by omega) (by omega)
          (fun k hk1 hk2 => hz k (by omega) hk2) hnz

/-! ### Field lemmas about setH3Index -/

theorem getField_zero (off width : Nat) : getField off width 0 = 0 := by
  simp [getField]

theorem const_lt_eight {d : Nat} (hd : d < 8) : ∀ x, x < 8 → (fun _ => d) x < 8 :=
  fun _ _ => hd

theorem setH3Index_base_lt {res bc d : Nat} (hres : res < 16) (hbc : bc < 128) :
    H3_SET_BASE_CELL (H3_SET_RESOLUTION (H3_SET_MODE H3_INIT H3_CELL_MODE) res)
      bc < 2 ^ 64 :=
  maskField_lt (by norm_num [H3_BC_OFFSET]) (by norm_num; omega) _

theorem setH3Index_lt {res bc d : Nat} (hres : res < 16) (hbc : bc < 128)
    (hd : d < 8) : setH3Index res bc d < 2 ^ 64 := by
  unfold setH3Index
  exact digitLoopAux_lt (const_lt_eight hd) _ _ _
    (setH3Index_base_lt (d := d) hres hbc)

theorem getRes_setH3Index {res bc d : Nat} (hres : res < 16) (hbc : bc < 128)
    (hd : d < 8) : H3_GET_RESOLUTION (setH3Index res bc d) = res := by
  unfold setH3Index H3_GET_RESOLUTION
  rw [getField_digitLoopAux_high (const_lt_eight hd)
    (by norm_num [H3_RES_OFFSET]) (by norm_num [H3_RES_OFFSET])
    (setH3Index_base_lt (d := d) hres hbc) le_rfl (by omega)]
  unfold H3_SET_BASE_CELL
  rw [getField_maskField_disjoint (by norm_num [H3_BC_OFFSET])
    (by norm_num; omega) (by norm_num [H3_RES_OFFSET])
    (by norm_num [H3_BC_OFFSET, H3_RES_OFFSET]) _]
  unfold H3_SET_RESOLUTION
  exact getField_maskField_self (by norm_num [H3_RES_OFFSET])
    (by norm_num; omega) _

theorem getBC_setH3Index {res bc d : Nat} (hres : res < 16) (hbc : bc < 128)
    (hd : d < 8) : H3_GET_BASE_CELL (setH3Index res bc d) = bc := by
  unfold setH3Index H3_GET_BASE_CELL
  rw [getField_digitLoopAux_high (const_lt_eight hd)
    (by norm_num [H3_BC_OFFSET]) (by norm_num [H3_BC_OFFSET])
    (setH3Index_base_lt (d := d) hres hbc) le_rfl (by omega)]
  unfold H3_SET_BASE_CELL
  exact getField_maskField_self (by norm_num [H3_BC_OFFSET])
    (by norm_num; omega) _

theorem getMode_setH3Index {res bc d : Nat} (hres : res < 16) (hbc : bc < 128)
    (hd : d < 8) : H3_GET_MODE (setH3Index res bc d) = H3_CELL_MODE := by
  unfold setH3Index H3_GET_MODE
  rw [getField_digitLoopAux_high (const_lt_eight hd)
    (by norm_num [H3_MODE_OFFSET]) (by norm_num [H3_MODE_OFFSET])
    (setH3Index_base_lt (d := d) hres hbc) le_rfl (by omega)]
  unfold H3_SET_BASE_CELL
  rw [getField_maskField_disjoint (by norm_num [H3_BC_OFFSET])
    (by norm_num; omega) (by norm_num [H3_MODE_OFFSET])
    (by norm_num [H3_BC_OFFSET, H3_MODE_OFFSET]) _]
  unfold H3_SET_RESOLUTION
  rw [getField_maskField_disjoint (by norm_num [H3_RES_OFFSET])
    (by norm_num; omega) (by norm_num [H3_MODE_OFFSET])
    (by norm_num [H3_RES_OFFSET, H3_MODE_OFFSET]) _]
  unfold H3_SET_MODE
  exact getField_maskField_self (by norm_num [H3_MODE_OFFSET])
    (by norm_num [H3_CELL_MODE]) _

theorem setH3Index_digit_zero {res bc : Nat} (hres : res < 16) (hbc : bc < 128)
    (k : Nat) (hk1 : 1 ≤ k) (hk15 : k ≤ 15) :
    H3_GET_INDEX_DIGIT (setH3Index res bc 0) k = 0 := by
  have hbase : H3_GET_INDEX_DIGIT
      (H3_SET_BASE_CELL (H3_SET_RESOLUTION (H3_SET_MODE H3_INIT H3_CELL_MODE)
        res) bc) k = 0 := by
    unfold H3_GET_INDEX_DIGIT H3_SET_BASE_CELL
    rw [getField_maskField_disjoint (by norm_num [H3_BC_OFFSET])
      (by norm_num; omega) (by rw [digitOffset_eq]; omega)
      (by rw [digitOffset_eq]; unfold H3_BC_OFFSET; omega) _]
    unfold H3_SET_RESOLUTION
    rw [getField_maskField_disjoint (by norm_num [H3_RES_OFFSET])
      (by norm_num; omega) (by rw [digitOffset_eq]; omega)
      (by rw [digitOffset_eq]; unfold H3_RES_OFFSET; omega) _]
    unfold H3_SET_MODE
    rw [getField_maskField_disjoint (by norm_num [H3_MODE_OFFSET])
      (by norm_num [H3_CELL_MODE]) (by rw [digitOffset_eq]; omega)
      (by rw [digitOffset_eq]; unfold H3_MODE_OFFSET; omega) _]
    unfold H3_INIT
    exact getField_zero _ _
  unfold setH3Index
  by_cases hk : k < 1 + res
  · rw [getDigit_digitLoopAux_in (const_lt_eight (by norm_num))
      (setH3Index_base_lt (d := 0) hres hbc) le_rfl (by omega) hk1 hk15 hk1 hk]
  · rw [getDigit_digitLoopAux_out (const_lt_eight (by norm_num))
      (setH3Index_base_lt (d := 0) hres hbc) le_rfl (by omega) hk1 hk15
      (by omega)]
    exact hbase

/-! ### Walk-loop lemmas -/

theorem table_row0 : ∀ dir, dir ≤ 6 →
    lookup2 NEW_DIGIT_II 0 dir = dir ∧ lookup2 NEW_DIGIT_III 0 dir = dir ∧
    lookup2 NEW_ADJUSTMENT_II 0 dir = 0 ∧ lookup2 NEW_ADJUSTMENT_III 0 dir = 0 := by
  decide

theorem walkLoop_zero_digit (svc : BaseCellService) (obc current dir m : Nat)
    (hdig : H3_GET_INDEX_DIGIT current (m + 1) = 0) (hdir : dir ≤ 6) :
    walkLoop svc obc current dir (m + 1) =
      .ok (H3_SET_INDEX_DIGIT current (m + 1) dir, 0, 0) := by
  obtain ⟨hII, hIII, haII, haIII⟩ := table_row0 dir hdir
  simp only [walkLoop]
  rw [hdig]
  rw [if_neg (by norm_num [INVALID_DIGIT])]
  by_cases hcls : isResolutionClassIII (m + 1) ≠ 0
  · have hsel : tableSelect (m + 1) = (NEW_DIGIT_II, NEW_ADJUSTMENT_II) := by
      unfold tableSelect
      rw [if_pos hcls]
    rw [hsel]
    simp only [hII, haII]
    rw [if_neg (by norm_num [CENTER_DIGIT])]
  · have hsel : tableSelect (m + 1) = (NEW_DIGIT_III, NEW_ADJUSTMENT_III) := by
      unfold tableSelect
      rw [if_neg hcls]
    rw [hsel]
    simp only [hIII, haIII]
    rw [if_neg (by norm_num [CENTER_DIGIT])]

theorem walkLoop_error_inv (svc : BaseCellService) (obc : Nat) :
    ∀ fuel current dir e, walkLoop svc obc current dir fuel = .error e →
      e = H3Error.E_CELL_INVALID := by
  intro fuel
  induction fuel with
  | zero =>
      intro current dir e h
      simp only [walkLoop] at h
      by_cases hc : H3_GET_BASE_CELL (H3_SET_BASE_CELL current
          (svc.neighbors obc dir)) = INVALID_BASE_CELL
      · rw [if_pos hc] at h
        exact absurd h (by simp)
      · rw [if_neg hc] at h
        exact absurd h (by simp)
  | succ m ih =>
      intro current dir e h
      simp only [walkLoop] at h
      by_cases h7 : H3_GET_INDEX_DIGIT current (m + 1) = INVALID_DIGIT
      · rw [if_pos h7] at h
        cases h
        rfl
      · rw [if_neg h7] at h
        by_cases hnd : lookup2 (tableSelect (m + 1)).2
            (H3_GET_INDEX_DIGIT current (m + 1)) dir ≠ CENTER_DIGIT
        · rw [if_pos hnd] at h
          exact ih _ _ _ h
        · rw [if_neg hnd] at h
          exact absurd h (by simp)

/-! ### Pentagon-adjust lemmas -/

theorem pentagonAdjust_center_k (svc : BaseCellService) {bc old cur : Nat}
    (rot : Int) (hlead : _h3LeadingNonZeroDigit cur = K_AXES_DIGIT)
    (hold : old = CENTER_DIGIT) :
    pentagonAdjust svc bc bc old cur rot = .error H3Error.E_PENTAGON := by
  unfold pentagonAdjust
  rw [if_pos hlead, if_neg (by simp), if_pos hold]

theorem pentagonAdjust_pentagon_inv {svc : BaseCellService}
    {obc nbc old cur : Nat} {rot : Int}
    (h : pentagonAdjust svc obc nbc old cur rot = .error H3Error.E_PENTAGON) :
    _h3LeadingNonZeroDigit cur = K_AXES_DIGIT ∧ obc = nbc ∧
      old = CENTER_DIGIT := by
  unfold pentagonAdjust at h
  by_cases h1 : _h3LeadingNonZeroDigit cur = K_AXES_DIGIT
  · rw [if_pos h1] at h
    by_cases h2 : obc ≠ nbc
    · rw [if_pos h2] at h
      by_cases h3 : svc.isCwOffset nbc (svc.homeFace obc)
      · rw [if_pos h3] at h
        exact absurd h (by simp)
      · rw [if_neg h3] at h
        exact absurd h (by simp)
    · rw [if_neg h2] at h
      push_neg at h2
      by_cases h4 : old = CENTER_DIGIT
      · exact ⟨h1, h2, h4⟩
      · rw [if_neg h4] at h
        by_cases h5 : old = JK_AXES_DIGIT
        · rw [if_pos h5] at h
          exact absurd h (by simp)
        · rw [if_neg h5] at h
          by_cases h6 : old = IK_AXES_DIGIT
          · rw [if_pos h6] at h
            exact absurd h (by simp)
          · rw [if_neg h6] at h
            cases h
  · rw [if_neg h1] at h
    exact absurd h (by simp)

theorem pentagonAdjust_ok_rotations {svc : BaseCellService}
    {obc nbc old cur : Nat} {rot : Int} {cur' : Nat} {rot' : Int} {adj : Bool}
    (h : pentagonAdjust svc obc nbc old cur rot = .ok (cur', rot', adj)) :
    rot' = rot ∨ rot' = rot + 1 ∨ rot' = rot + 5 := by
  unfold pentagonAdjust at h
  by_cases h1 : _h3LeadingNonZeroDigit cur = K_AXES_DIGIT
  · rw [if_pos h1] at h
    by_cases h2 : obc ≠ nbc
    · rw [if_pos h2] at h
      by_cases h3 : svc.isCwOffset nbc (svc.homeFace obc)
      · rw [if_pos h3] at h
        cases h
        exact Or.inl rfl
      · rw [if_neg h3] at h
        cases h
        exact Or.inl rfl
    · rw [if_neg h2] at h
      by_cases h4 : old = CENTER_DIGIT
      · rw [if_pos h4] at h
        cases h
      · rw [if_neg h4] at h
        by_cases h5 : old = JK_AXES_DIGIT
        · rw [if_pos h5] at h
          cases h
          exact Or.inr (Or.inl rfl)
        · rw [if_neg h5] at h
          by_cases h6 : old = IK_AXES_DIGIT
          · rw [if_pos h6] at h
            cases h
            exact Or.inr (Or.inr rfl)
          · rw [if_neg h6] at h
            cases h
  · rw [if_neg h1] at h
    cases h
    exact Or.inl rfl

theorem polarAdjust_cases (svc : BaseCellService) (obc nbc : Nat) (adj : Bool)
    (cur : Nat) (rot : Int) :
    polarAdjust svc obc nbc adj cur rot = rot ∨
      polarAdjust svc obc nbc adj cur rot = rot + 1 := by
  unfold polarAdjust
  by_cases h1 : obc ≠ nbc
  · rw [if_pos h1]
    by_cases h2 : svc.isPolarPentagon nbc
    · rw [if_pos h2]
      by_cases h3 : obc ≠ 118 ∧ obc ≠ 8 ∧ _h3LeadingNonZeroDigit cur ≠ JK_AXES_DIGIT
      · rw [if_pos h3]; exact Or.inr rfl
      · rw [if_neg h3]; exact Or.inl rfl
    · rw [if_neg h2]
      by_cases h4 : _h3LeadingNonZeroDigit cur = IK_AXES_DIGIT ∧ adj = false
      · rw [if_pos h4]; exact Or.inr rfl
      · rw [if_neg h4]; exact Or.inl rfl
  · rw [if_neg h1]; exact Or.inl rfl

/-! ### Direction and base-cell field helpers -/

theorem rotate60ccw_le_six : ∀ d, d ≤ 6 → _rotate60ccw d ≤ 6 := by decide

theorem iterate_rotate60ccw_le_six : ∀ n d, d ≤ 6 →
    Nat.iterate _rotate60ccw n d ≤ 6 := by
  intro n
  induction n with
  | zero => intro d hd; exact hd
  | succ n ih => intro d hd; exact ih _ (rotate60ccw_le_six d hd)

theorem setBC_lt {v : Nat} (h : Nat) (hv : v < 128) :
    H3_SET_BASE_CELL h v < 2 ^ 64 :=
  maskField_lt (by norm_num [H3_BC_OFFSET]) (by norm_num; omega) h

theorem getRes_setBC {v : Nat} (h : Nat) (hv : v < 128) :
    H3_GET_RESOLUTION (H3_SET_BASE_CELL h v) = H3_GET_RESOLUTION h :=
  getField_maskField_disjoint (by norm_num [H3_BC_OFFSET]) (by norm_num; omega)
    (by norm_num [H3_RES_OFFSET]) (by norm_num [H3_BC_OFFSET, H3_RES_OFFSET]) h

theorem getBC_setBC_self {v : Nat} (h : Nat) (hv : v < 128) :
    H3_GET_BASE_CELL (H3_SET_BASE_CELL h v) = v :=
  getField_maskField_self (by norm_num [H3_BC_OFFSET]) (by norm_num; omega) h

theorem leading_center {origin : Nat}
    (hzero : ∀ k, 1 ≤ k → k ≤ 15 → H3_GET_INDEX_DIGIT origin k = 0) :
    _h3LeadingNonZeroDigit origin = CENTER_DIGIT := by
  unfold _h3LeadingNonZeroDigit
  exact leadingAux_all_zero (H3_GET_RESOLUTION origin) 1
    (fun k h1 h2 => hzero k h1 (by have := getRes_le_15 origin; omega))

theorem leading_setDigit_top {origin res d : Nat} (ho : origin < 2 ^ 64)
    (hres1 : 1 ≤ res) (hres15 : res ≤ 15)
    (hresval : H3_GET_RESOLUTION origin = res)
    (hzero : ∀ k, 1 ≤ k → k < res → H3_GET_INDEX_DIGIT origin k = 0)
    (hd : d < 8) (hd0 : d ≠ 0) :
    _h3LeadingNonZeroDigit (H3_SET_INDEX_DIGIT origin res d) = d := by
  unfold _h3LeadingNonZeroDigit
  rw [getRes_setDigit origin res hres1 hd, hresval]
  have hz : ∀ k, 1 ≤ k → k < res →
      H3_GET_INDEX_DIGIT (H3_SET_INDEX_DIGIT origin res d) k = 0 := by
    intro k h1 h2
    rw [getDigit_setDigit_ne origin res k hres1 hres15 h1 (by omega)
      (by omega) hd]
    exact hzero k h1 h2
  rw [leadingAux_first_nonzero res 1 res (by omega) (by omega)
    (fun k hk1 hk2 => hz k hk1 hk2)
    (by rw [getDigit_setDigit_self origin res hd]; exact hd0)]
  exact getDigit_setDigit_self origin res hd

/-! ### C2: the pentagon-center error, positive direction -/

set_option maxHeartbeats 1000000 in
theorem neighbor_pentagon_center_k_pos (svc : BaseCellService) (bc res : Nat)
    (hpent : svc.isPentagon bc = true) (hbc : bc < NUM_BASE_CELLS)
    (hres1 : 1 ≤ res) (hres15 : res ≤ 15) :
    h3NeighborRotations svc (setH3Index res bc 0) 1 0 =
      .error H3Error.E_PENTAGON := by
  have hguard : ¬((1 : Int) < ((CENTER_DIGIT : Nat) : Int) ∨
      ((INVALID_DIGIT : Nat) : Int) ≤ (1 : Int)) := by
    norm_num [CENTER_DIGIT, INVALID_DIGIT]
  have hnle : ¬(NUM_BASE_CELLS ≤ bc) := by
    unfold NUM_BASE_CELLS at hbc ⊢
    omega
  have hdir : Nat.iterate _rotate60ccw (((0 : Int).tmod 6).toNat)
      ((1 : Int).toNat) = 1 := rfl
  have hbc128 : bc < 128 := by unfold NUM_BASE_CELLS at hbc; omega
  have hres16 : res < 16 := by omega
  have hzero : ∀ k, 1 ≤ k → k ≤ 15 →
      H3_GET_INDEX_DIGIT (setH3Index res bc 0) k = 0 :=
    fun k h1 h2 => setH3Index_digit_zero hres16 hbc128 k h1 h2
  have horiglt : setH3Index res bc 0 < 2 ^ 64 :=
    setH3Index_lt hres16 hbc128 (by norm_num)
  have hresv : H3_GET_RESOLUTION (setH3Index res bc 0) = res :=
    getRes_setH3Index hres16 hbc128 (by norm_num)
  have hbcv : H3_GET_BASE_CELL (setH3Index res bc 0) = bc :=
    getBC_setH3Index hres16 hbc128 (by norm_num)
  have hlead0 : _h3LeadingNonZeroDigit (setH3Index res bc 0) = CENTER_DIGIT :=
    leading_center hzero
  obtain ⟨m, hm⟩ : ∃ m, res = m + 1 := ⟨res - 1, by omega⟩
  have hwalkgen : ∀ X : Nat, H3_GET_INDEX_DIGIT X res = 0 →
      walkLoop svc bc X 1 res = .ok (H3_SET_INDEX_DIGIT X res 1, 0, 0) := by
    intro X hX
    rw [hm] at hX ⊢
    exact walkLoop_zero_digit svc bc X 1 m hX (by norm_num)
  have hwalk := hwalkgen (setH3Index res bc 0)
    (hzero res (by omega) (by omega))
  have hcur1bc : H3_GET_BASE_CELL
      (H3_SET_INDEX_DIGIT (setH3Index res bc 0) res 1) = bc := by
    rw [getBC_setDigit (setH3Index res bc 0) res hres1 (by norm_num)]
    exact hbcv
  have hcur1lead : _h3LeadingNonZeroDigit
      (H3_SET_INDEX_DIGIT (setH3Index res bc 0) res 1) = K_AXES_DIGIT :=
    leading_setDigit_top horiglt hres1 hres15 hresv
      (fun k h1 h2 => hzero k h1 (by omega)) (by norm_num) (by norm_num)
  have hpadj : ∀ rot : Int, pentagonAdjust svc bc bc
      (_h3LeadingNonZeroDigit (setH3Index res bc 0))
      (H3_SET_INDEX_DIGIT (setH3Index res bc 0) res 1) rot =
      .error H3Error.E_PENTAGON :=
    fun rot => pentagonAdjust_center_k svc rot hcur1lead hlead0
  simp only [h3NeighborRotations]
  rw [if_neg hguard]
  rw [hbcv, hresv, hdir]
  rw [if_neg hnle]
  rw [hwalk]
  simp only [hcur1bc, hpent, if_true]
  rw [hpadj]

theorem walkLoop_fuel0_res {svc : BaseCellService} {obc origin dir cur1 nr extra : Nat}
    (hsvc : ∀ b d, svc.neighbors b d < 128)
    (heq : walkLoop svc obc origin dir 0 = .ok (cur1, nr, extra)) :
    H3_GET_RESOLUTION cur1 = H3_GET_RESOLUTION origin := by
  simp only [walkLoop] at heq
  by_cases hc : H3_GET_BASE_CELL (H3_SET_BASE_CELL origin
      (svc.neighbors obc dir)) = INVALID_BASE_CELL
  · rw [if_pos hc] at heq
    cases heq
    rw [getRes_h3Rotate60ccw (setBC_lt _ (hsvc obc IK_AXES_DIGIT))]
    rw [getRes_setBC _ (hsvc obc IK_AXES_DIGIT), getRes_setBC _ (hsvc obc dir)]
  · rw [if_neg hc] at heq
    cases heq
    exact getRes_setBC _ (hsvc obc dir)

theorem neighbor_pentagon_error_inv (svc : BaseCellService) (origin : H3Index)
    (dirArg rotIn : Int) (ho : origin < 2 ^ 64)
    (hsvc : ∀ b d, svc.neighbors b d < 128)
    (herr : h3NeighborRotations svc origin dirArg rotIn =
      .error H3Error.E_PENTAGON) :
    svc.isPentagon (H3_GET_BASE_CELL origin) = true ∧
    _h3LeadingNonZeroDigit origin = CENTER_DIGIT ∧
    1 ≤ H3_GET_RESOLUTION origin ∧
    Nat.iterate _rotate60ccw ((rotIn.tmod 6).toNat) (dirArg.toNat) =
      K_AXES_DIGIT := by
  simp only [h3NeighborRotations] at herr
  split at herr
  · exact absurd herr (by simp)
  · split at herr
    · exact absurd herr (by simp)
    · rename_i hguardneg hbcok
      split at herr
      · rename_i e hwalkerr
        have := walkLoop_error_inv svc (H3_GET_BASE_CELL origin) _ _ _ _ hwalkerr
        subst this
        exact absurd herr (by simp)
      · rename_i cur1 newRot extra hwalkok
        split at herr
        · rename_i hpent
          split at herr
          · rename_i e2 hpadjerr
            have he2 : e2 = H3Error.E_PENTAGON := by
              injection herr
            subst he2
            obtain ⟨hleadK, hbceq, hold⟩ := pentagonAdjust_pentagon_inv hpadjerr
            set effdir := Nat.iterate _rotate60ccw ((rotIn.tmod 6).toNat)
              (dirArg.toNat) with heffdef
            have hdirle : dirArg.toNat ≤ 6 := by
              have hg : ¬(dirArg < ((CENTER_DIGIT : Nat) : Int) ∨
                  ((INVALID_DIGIT : Nat) : Int) ≤ dirArg) := hguardneg
              norm_num [CENTER_DIGIT, INVALID_DIGIT] at hg
              omega
            have heffle : effdir ≤ 6 := iterate_rotate60ccw_le_six _ _ hdirle
            have hres1 : 1 ≤ H3_GET_RESOLUTION origin := by
              by_contra hres0
              have hres0' : H3_GET_RESOLUTION origin = 0 := by omega
              rw [hres0'] at hwalkok
              have hrescur := walkLoop_fuel0_res hsvc hwalkok
              have hlead0 : _h3LeadingNonZeroDigit cur1 = CENTER_DIGIT := by
                unfold _h3LeadingNonZeroDigit
                rw [hrescur, hres0']
                rfl
              rw [hlead0] at hleadK
              exact absurd hleadK (by decide)
            have hz : ∀ k, 1 ≤ k → k < 1 + H3_GET_RESOLUTION origin →
                H3_GET_INDEX_DIGIT origin k = 0 :=
              leadingAux_eq_zero_imp (H3_GET_RESOLUTION origin) 1 hold
            obtain ⟨m, hm⟩ : ∃ m, H3_GET_RESOLUTION origin = m + 1 :=
              ⟨H3_GET_RESOLUTION origin - 1, by omega⟩
            have hwalk2 : walkLoop svc (H3_GET_BASE_CELL origin) origin effdir
                (H3_GET_RESOLUTION origin) =
                .ok (H3_SET_INDEX_DIGIT origin (H3_GET_RESOLUTION origin)
                  effdir, 0, 0) := by
              rw [hm]
              exact walkLoop_zero_digit svc _ origin effdir m
                (by rw [← hm]; exact hz _ (by omega) (by omega)) heffle
            rw [hwalk2] at hwalkok
            have hcur1 : cur1 = H3_SET_INDEX_DIGIT origin
                (H3_GET_RESOLUTION origin) effdir := by
              cases hwalkok
              rfl
            subst hcur1
            have heffK : effdir = K_AXES_DIGIT := by
              by_cases h0 : effdir = 0
              · rw [h0] at hleadK
                have hlead0 : _h3LeadingNonZeroDigit (H3_SET_INDEX_DIGIT origin
                    (H3_GET_RESOLUTION origin) 0) = CENTER_DIGIT := by
                  unfold _h3LeadingNonZeroDigit
                  rw [getRes_setDigit origin _ hres1 (by norm_num)]
                  apply leadingAux_all_zero
                  intro k hk1 hk2
                  by_cases hkr : k = H3_GET_RESOLUTION origin
                  · rw [hkr]
                    exact getDigit_setDigit_self origin _ (by norm_num)
                  · rw [getDigit_setDigit_ne origin _ k hres1
                      (getRes_le_15 origin) hk1
                      (by have := getRes_le_15 origin; omega)
                      (fun he => hkr he.symm) (by norm_num)]
                    exact hz k hk1 hk2
                rw [hlead0] at hleadK
                exact absurd hleadK (by decide)
              · have := leading_setDigit_top ho hres1 (getRes_le_15 origin)
                  rfl (fun k h1 h2 => hz k h1 (by omega))
                  (lt_of_le_of_lt heffle (by norm_num)) h0
                rw [this] at hleadK
                exact hleadK
            exact ⟨by rw [hbceq]; exact hpent, hold, hres1, heffK⟩
          · exact absurd herr (by simp)
        · exact absurd herr (by simp)


/-- C2 (amended): for every base-cell service, every pentagon base cell and
    every resolution 1..15, calling `h3NeighborRotations` on that pentagon's
    center cell (all digits zero) with direction K and zero rotations returns
    the domain-undefined pentagon error and produces no output cell; and
    conversely, every call that returns E_PENTAGON (for a 64-bit origin and a
    service whose adjacency values fit the 7-bit base cell field) has a
    pentagon-center origin of resolution at least 1 whose rotation-adjusted
    effective direction is K.  (The claim's "only input class" is amended:
    the rotation count is folded into the direction, so inputs with nonzero
    rotations whose effective direction is K yield the error as well.) -/
theorem pentagon_center_k_error :
    (∀ (svc : BaseCellService) (bc res : Nat), svc.isPentagon bc = true →
      bc < NUM_BASE_CELLS → 1 ≤ res → res ≤ 15 →
      h3NeighborRotations svc (setH3Index res bc 0) 1 0 =
        .error H3Error.E_PENTAGON) ∧
    (∀ (svc : BaseCellService) (origin : H3Index) (dirArg rotIn : Int),
      origin < 2 ^ 64 → (∀ b d, svc.neighbors b d < 128) →
      h3NeighborRotations svc origin dirArg rotIn =
        .error H3Error.E_PENTAGON →
      svc.isPentagon (H3_GET_BASE_CELL origin) = true ∧
      _h3LeadingNonZeroDigit origin = CENTER_DIGIT ∧
      1 ≤ H3_GET_RESOLUTION origin ∧
      Nat.iterate _rotate60ccw ((rotIn.tmod 6).toNat) (dirArg.toNat) =
        K_AXES_DIGIT) :=
  ⟨fun svc bc res h1 h2 h3 h4 =>
      neighbor_pentagon_center_k_pos svc bc res h1 h2 h3 h4,
   fun svc origin dirArg rotIn h1 h2 h3 =>
      neighbor_pentagon_error_inv svc origin dirArg rotIn h1 h2 h3⟩

/-- Witness for C2: both directions instantiated on the concrete pentagon
    service, pentagon base cell 4 at resolution 1. -/
theorem pentagon_center_k_error_witness :
    svcPent.isPentagon 4 = true ∧
    h3NeighborRotations svcPent (setH3Index 1 4 0) 1 0 =
      .error H3Error.E_PENTAGON ∧
    (svcPent.isPentagon (H3_GET_BASE_CELL (setH3Index 1 4 0)) = true ∧
      _h3LeadingNonZeroDigit (setH3Index 1 4 0) = CENTER_DIGIT ∧
      1 ≤ H3_GET_RESOLUTION (setH3Index 1 4 0) ∧
      Nat.iterate _rotate60ccw (((0 : Int).tmod 6).toNat) ((1 : Int).toNat) =
        K_AXES_DIGIT) :=
  ⟨by decide,
   pentagon_center_k_error.1 svcPent 4 1 (by decide) (by decide) (by decide)
     (by decide),
   pentagon_center_k_error.2 svcPent (setH3Index 1 4 0) 1 0 (by decide)
     (fun b d => by simp only [svcPent]; unfold NUM_BASE_CELLS; omega)
     (pentagon_center_k_error.1 svcPent 4 1 (by decide) (by decide) (by decide)
       (by decide))⟩

/-! ### High-bit preservation through the walk (for C10) -/

theorem hi_refl {a : Nat} (ha : a < 2 ^ 64) : HiPreserved a a :=
  ⟨ha, fun _ _ => rfl⟩

theorem hi_trans {a b c : Nat} (h1 : HiPreserved a b) (h2 : HiPreserved b c) :
    HiPreserved a c :=
  ⟨h2.1, fun i hi => (h2.2 i hi).trans (h1.2 i hi)⟩

theorem hi_setDigit {a r d : Nat} (ha : a < 2 ^ 64) (hd : d < 8) :
    HiPreserved a (H3_SET_INDEX_DIGIT a r d) := by
  refine ⟨setDigit_lt a r hd, fun i hi => ?_⟩
  rw [testBit_setDigit a r hd i, if_neg (by rw [digitOffset_eq]; omega)]
  by_cases h64 : i < 64
  · simp [h64]
  · have : a.testBit i = false :=
      Nat.testBit_lt_two_pow
        (lt_of_lt_of_le ha (Nat.pow_le_pow_right (by norm_num) (by omega)))
    simp [h64, this]

theorem hi_setBC {a v : Nat} (ha : a < 2 ^ 64) (hv : v < 128) :
    HiPreserved a (H3_SET_BASE_CELL a v) := by
  refine ⟨setBC_lt a hv, fun i hi => ?_⟩
  unfold H3_SET_BASE_CELL
  rw [testBit_maskField (by norm_num [H3_BC_OFFSET]) (by norm_num; omega) a i,
    if_neg (by unfold H3_BC_OFFSET; omega)]
  by_cases h64 : i < 64
  · simp [h64]
  · have : a.testBit i = false :=
      Nat.testBit_lt_two_pow
        (lt_of_lt_of_le ha (Nat.pow_le_pow_right (by norm_num) (by omega)))
    simp [h64, this]

theorem hi_digitLoopAux {f : Nat → Nat} (hf : ∀ x, x < 8 → f x < 8) :
    ∀ n r a, a < 2 ^ 64 → HiPreserved a (digitLoopAux f a r n) := by
  intro n
  induction n with
  | zero => intro r a ha; exact hi_refl ha
  | succ n ih =>
      intro r a ha
      have hd : f (H3_GET_INDEX_DIGIT a r) < 8 := hf _ (getDigit_lt a r)
      exact hi_trans (hi_setDigit ha hd) (ih (r + 1) _ (setDigit_lt a r hd))

theorem hi_rotate60ccw {a : Nat} (ha : a < 2 ^ 64) :
    HiPreserved a (_h3Rotate60ccw a) :=
  hi_digitLoopAux rotate60ccw_lt_eight _ _ a ha

theorem hi_rotate60cw {a : Nat} (ha : a < 2 ^ 64) :
    HiPreserved a (_h3Rotate60cw a) :=
  hi_digitLoopAux rotate60cw_lt_eight _ _ a ha

theorem hi_pentLoopAux {dRot iRot : Nat → Nat}
    (hdR : ∀ x, x < 8 → dRot x < 8)
    (hiR : ∀ a, a < 2 ^ 64 → HiPreserved a (iRot a)) :
    ∀ n r b a, a < 2 ^ 64 → HiPreserved a (pentLoopAux dRot iRot a r b n) := by
  intro n
  induction n with
  | zero => intro r b a ha; exact hi_refl ha
  | succ n ih =>
      intro r b a ha
      have hd : dRot (H3_GET_INDEX_DIGIT a r) < 8 := hdR _ (getDigit_lt a r)
      have h1 : HiPreserved a (H3_SET_INDEX_DIGIT a r
          (dRot (H3_GET_INDEX_DIGIT a r))) := hi_setDigit ha hd
      simp only [pentLoopAux]
      by_cases hbr : b = false ∧ H3_GET_INDEX_DIGIT (H3_SET_INDEX_DIGIT a r
          (dRot (H3_GET_INDEX_DIGIT a r))) r ≠ 0
      · rw [if_pos hbr]
        by_cases hk : _h3LeadingNonZeroDigit (H3_SET_INDEX_DIGIT a r
            (dRot (H3_GET_INDEX_DIGIT a r))) = K_AXES_DIGIT
        · rw [if_pos hk]
          have h2 := hiR _ h1.1
          exact hi_trans (hi_trans h1 h2) (ih (r + 1) true _ h2.1)
        · rw [if_neg hk]
          exact hi_trans h1 (ih (r + 1) true _ h1.1)
      · rw [if_neg hbr]
        exact hi_trans h1 (ih (r + 1) b _ h1.1)

theorem hi_rotatePent60ccw {a : Nat} (ha : a < 2 ^ 64) :
    HiPreserved a (_h3RotatePent60ccw a) :=
  hi_pentLoopAux rotate60ccw_lt_eight (fun _ h => hi_rotate60ccw h) _ _ _ a ha

theorem hi_iterate {g : Nat → Nat}
    (hg : ∀ a, a < 2 ^ 64 → HiPreserved a (g a)) :
    ∀ n a, a < 2 ^ 64 → HiPreserved a (Nat.iterate g n a) := by
  intro n
  induction n with
  | zero => intro a ha; exact hi_refl ha
  | succ n ih =>
      intro a ha
      exact hi_trans (hg a ha) (ih _ (hg a ha).1)

theorem lookup2_le_of_all {t : List (List Nat)}
    (H : ∀ l ∈ t, ∀ x ∈ l, x ≤ 6) (i j : Nat) : lookup2 t i j ≤ 6 := by
  unfold lookup2
  by_cases hi : i < t.length
  · have hmem : t.getD i [] ∈ t := by
      rw [List.getD_eq_getElem t [] hi]
      exact List.getElem_mem hi
    by_cases hj : j < (t.getD i []).length
    · have hx : (t.getD i []).getD j 0 ∈ t.getD i [] := by
        rw [List.getD_eq_getElem (t.getD i []) 0 hj]
        exact List.getElem_mem hj
      exact H _ hmem _ hx
    · rw [List.getD_eq_default _ 0 (by omega)]
      omega
  · rw [List.getD_eq_default t [] (by omega)]
    simp

theorem NEW_DIGIT_II_le (i j : Nat) : lookup2 NEW_DIGIT_II i j ≤ 6 :=
  lookup2_le_of_all (by decide) i j

theorem NEW_DIGIT_III_le (i j : Nat) : lookup2 NEW_DIGIT_III i j ≤ 6 :=
  lookup2_le_of_all (by decide) i j

theorem tableSelect_digit_le (level i j : Nat) :
    lookup2 (tableSelect level).1 i j ≤ 6 := by
  unfold tableSelect
  by_cases hc : isResolutionClassIII level ≠ 0
  · rw [if_pos hc]; exact NEW_DIGIT_II_le i j
  · rw [if_neg hc]; exact NEW_DIGIT_III_le i j

theorem hi_walkLoop {svc : BaseCellService} {obc : Nat}
    (hsvc : ∀ b d, svc.neighbors b d < 128) :
    ∀ fuel cur dir cur1 nr extra, cur < 2 ^ 64 →
      walkLoop svc obc cur dir fuel = .ok (cur1, nr, extra) →
      HiPreserved cur cur1 := by
  intro fuel
  induction fuel with
  | zero =>
      intro cur dir cur1 nr extra hcur heq
      simp only [walkLoop] at heq
      by_cases hc : H3_GET_BASE_CELL (H3_SET_BASE_CELL cur
          (svc.neighbors obc dir)) = INVALID_BASE_CELL
      · rw [if_pos hc] at heq
        cases heq
        have h1 := hi_setBC hcur (hsvc obc dir)
        have h2 := hi_setBC h1.1 (hsvc obc IK_AXES_DIGIT)
        exact hi_trans (hi_trans h1 h2) (hi_rotate60ccw h2.1)
      · rw [if_neg hc] at heq
        cases heq
        exact hi_setBC hcur (hsvc obc dir)
  | succ m ih =>
      intro cur dir cur1 nr extra hcur heq
      simp only [walkLoop] at heq
      by_cases h7 : H3_GET_INDEX_DIGIT cur (m + 1) = INVALID_DIGIT
      · rw [if_pos h7] at heq
        cases heq
      · rw [if_neg h7] at heq
        have hd : lookup2 (tableSelect (m + 1)).1
            (H3_GET_INDEX_DIGIT cur (m + 1)) dir < 8 :=
          lt_of_le_of_lt (tableSelect_digit_le _ _ _) (by norm_num)
        have h1 := hi_setDigit (r := m + 1) hcur hd
        by_cases hnd : lookup2 (tableSelect (m + 1)).2
            (H3_GET_INDEX_DIGIT cur (m + 1)) dir ≠ CENTER_DIGIT
        · rw [if_pos hnd] at heq
          exact hi_trans h1 (ih _ _ _ _ _ h1.1 heq)
        · rw [if_neg hnd] at heq
          cases heq
          exact h1

theorem hi_pentagonAdjust {svc : BaseCellService}
    {obc nbc old cur : Nat} {rot : Int} {cur2 : Nat} {rot2 : Int} {adj : Bool}
    (hcur : cur < 2 ^ 64)
    (heq : pentagonAdjust svc obc nbc old cur rot = .ok (cur2, rot2, adj)) :
    HiPreserved cur cur2 := by
  unfold pentagonAdjust at heq
  by_cases h1 : _h3LeadingNonZeroDigit cur = K_AXES_DIGIT
  · rw [if_pos h1] at heq
    by_cases h2 : obc ≠ nbc
    · rw [if_pos h2] at heq
      by_cases h3 : svc.isCwOffset nbc (svc.homeFace obc)
      · rw [if_pos h3] at heq
        cases heq
        exact hi_rotate60cw hcur
      · rw [if_neg h3] at heq
        cases heq
        exact hi_rotate60ccw hcur
    · rw [if_neg h2] at heq
      by_cases h4 : old = CENTER_DIGIT
      · rw [if_pos h4] at heq
        cases heq
      · rw [if_neg h4] at heq
        by_cases h5 : old = JK_AXES_DIGIT
        · rw [if_pos h5] at heq
          cases heq
          exact hi_rotate60ccw hcur
        · rw [if_neg h5] at heq
          by_cases h6 : old = IK_AXES_DIGIT
          · rw [if_pos h6] at heq
            cases heq
            exact hi_rotate60cw hcur
          · rw [if_neg h6] at heq
            cases heq
  · rw [if_neg h1] at heq
    cases heq
    exact hi_refl hcur

/-- C10: every successful call to `h3NeighborRotations` returns a cell whose
    mode field and resolution field equal those of the origin cell; all bits
    from position 52 up (resolution, mode and reserved bits) are unchanged,
    so only the base-cell field and the direction digits may differ. -/
theorem neighbor_preserves_mode_res (svc : BaseCellService)
    (origin out : H3Index) (dirArg rotIn rotOut : Int) (ho : origin < 2 ^ 64)
    (hsvc : ∀ b d, svc.neighbors b d < 128)
    (hok : h3NeighborRotations svc origin dirArg rotIn = .ok (out, rotOut)) :
    H3_GET_MODE out = H3_GET_MODE origin ∧
    H3_GET_RESOLUTION out = H3_GET_RESOLUTION origin ∧
    ∀ i, 52 ≤ i → out.testBit i = origin.testBit i := by
  suffices h : HiPreserved origin out by
    refine ⟨?_, ?_, h.2⟩
    · unfold H3_GET_MODE
      exact getField_congr (fun j hj => h.2 _ (by unfold H3_MODE_OFFSET; omega))
    · unfold H3_GET_RESOLUTION
      exact getField_congr (fun j hj => h.2 _ (by unfold H3_RES_OFFSET; omega))
  simp only [h3NeighborRotations] at hok
  split at hok
  · exact absurd hok (by simp)
  · split at hok
    · exact absurd hok (by simp)
    · split at hok
      · exact absurd hok (by simp)
      · rename_i cur1 newRot extra hwalkok
        have hi1 := hi_walkLoop hsvc _ _ _ _ _ _ ho hwalkok
        split at hok
        · split at hok
          · exact absurd hok (by simp)
          · rename_i cur2 rot2 adj hpadj
            have hi2 := hi_pentagonAdjust hi1.1 hpadj
            have hi3 := hi_iterate (fun a ha => hi_rotatePent60ccw ha)
              newRot cur2 hi2.1
            have hout : out = Nat.iterate _h3RotatePent60ccw newRot cur2 := by
              cases hok
              rfl
            rw [hout]
            exact hi_trans (hi_trans hi1 hi2) hi3
        · have hout : out = Nat.iterate _h3Rotate60ccw newRot cur1 := by
            cases hok
            rfl
          rw [hout]
          exact hi_trans hi1
            (hi_iterate (fun a ha => hi_rotate60ccw ha) newRot cur1 hi1.1)


/-- Witness for C10: the preservation theorem applied to a concrete
    successful call. -/
theorem neighbor_preserves_mode_res_witness :
    h3NeighborRotations svcHex (setH3Index 1 0 0) 2 0 =
      .ok (2 ^ 59 + 2 ^ 52 + 2 ^ 43, 0) ∧
    H3_GET_MODE (2 ^ 59 + 2 ^ 52 + 2 ^ 43) = H3_GET_MODE (setH3Index 1 0 0) ∧
    H3_GET_RESOLUTION (2 ^ 59 + 2 ^ 52 + 2 ^ 43) =
      H3_GET_RESOLUTION (setH3Index 1 0 0) ∧
    Nat.testBit (2 ^ 59 + 2 ^ 52 + 2 ^ 43) 60 =
      Nat.testBit (setH3Index 1 0 0) 60 :=
  ⟨by decide,
   (neighbor_preserves_mode_res svcHex (setH3Index 1 0 0)
     (2 ^ 59 + 2 ^ 52 + 2 ^ 43) 2 0 0 (by decide)
     (fun b d => by simp only [svcHex]; unfold NUM_BASE_CELLS; omega)
     (by decide)).1,
   (neighbor_preserves_mode_res svcHex (setH3Index 1 0 0)
     (2 ^ 59 + 2 ^ 52 + 2 ^ 43) 2 0 0 (by decide)
     (fun b d => by simp only [svcHex]; unfold NUM_BASE_CELLS; omega)
     (by decide)).2.1,
   (neighbor_preserves_mode_res svcHex (setH3Index 1 0 0)
     (2 ^ 59 + 2 ^ 52 + 2 ^ 43) 2 0 0 (by decide)
     (fun b d => by simp only [svcHex]; unfold NUM_BASE_CELLS; omega)
     (by decide)).2.2 60 (by decide)⟩

/-- C5 (amended): every successful call to `h3NeighborRotations` stores back
    the rotation count `(rotations + newRotations)` reduced with C's
    truncated `%` by 6; for every non-negative input rotation count the
    stored value lies in the range 0..5.  (For negative inputs C's truncated
    `%` can store a negative value, so the claim's unconditional 0..5 range
    is corrected to non-negative inputs.) -/
theorem neighbor_rotations_range (svc : BaseCellService) (origin out : H3Index)
    (dirArg rotIn rotOut : Int) (h0 : 0 ≤ rotIn)
    (hok : h3NeighborRotations svc origin dirArg rotIn = .ok (out, rotOut)) :
    0 ≤ rotOut ∧ rotOut < 6 := by
  have htm : 0 ≤ rotIn.tmod 6 := Int.tmod_nonneg 6 h0
  simp only [h3NeighborRotations] at hok
  split at hok
  · exact absurd hok (by simp)
  · split at hok
    · exact absurd hok (by simp)
    · split at hok
      · exact absurd hok (by simp)
      · rename_i cur1 newRot extra hwalkok
        split at hok
        · split at hok
          · exact absurd hok (by simp)
          · rename_i cur2 rot2 adj hpadj
            have hrot2 := pentagonAdjust_ok_rotations hpadj
            have hpol := polarAdjust_cases svc (H3_GET_BASE_CELL origin)
              (H3_GET_BASE_CELL cur1) adj
              (Nat.iterate _h3RotatePent60ccw newRot cur2) rot2
            have hrotOut : rotOut = (polarAdjust svc (H3_GET_BASE_CELL origin)
                (H3_GET_BASE_CELL cur1) adj
                (Nat.iterate _h3RotatePent60ccw newRot cur2) rot2 +
                (newRot : Int)).tmod 6 := by
              cases hok
              rfl
            have hinner : 0 ≤ polarAdjust svc (H3_GET_BASE_CELL origin)
                (H3_GET_BASE_CELL cur1) adj
                (Nat.iterate _h3RotatePent60ccw newRot cur2) rot2 +
                (newRot : Int) := by
              rcases hpol with h2 | h2 <;> rw [h2] <;>
                rcases hrot2 with h | h | h <;> rw [h] <;> omega
            rw [hrotOut, Int.tmod_eq_emod hinner (by norm_num)]
            omega
        · have hrotOut : rotOut =
              (rotIn.tmod 6 + (extra : Int) + (newRot : Int)).tmod 6 := by
            cases hok
            rfl
          have hinner : 0 ≤ rotIn.tmod 6 + (extra : Int) + (newRot : Int) := by
            omega
          rw [hrotOut, Int.tmod_eq_emod hinner (by norm_num)]
          omega


/-- Witness for C5: the range theorem applied to a concrete successful call
    with rotation count 0. -/
theorem neighbor_rotations_range_witness :
    (0 : Int) ≤ 0 ∧
    h3NeighborRotations svcHex (setH3Index 1 0 0) 2 0 =
      .ok (2 ^ 59 + 2 ^ 52 + 2 ^ 43, 0) ∧
    ((0 : Int) ≤ 0 ∧ (0 : Int) < 6) :=
  ⟨le_refl 0, by decide,
   neighbor_rotations_range svcHex (setH3Index 1 0 0)
     (2 ^ 59 + 2 ^ 52 + 2 ^ 43) 2 0 0 (le_refl 0) (by decide)⟩

/-! ### C8: open-addressing facts for the edge tracer -/

theorem foundGet_set {found : List Nat} {t x : Nat} (ht : t < found.length)
    (j : Nat) :
    foundGet (found.set t x) j = if j = t then x else foundGet found j := by
  unfold foundGet
  by_cases hj : j = t
  · subst hj
    rw [if_pos rfl, List.getD_eq_getElem _ 0 (by rw [List.length_set]; omega),
      List.getElem_set_self]
  · rw [if_neg hj]
    by_cases hlt : j < found.length
    · rw [List.getD_eq_getElem _ 0 (by rw [List.length_set]; omega),
        List.getD_eq_getElem _ 0 hlt,
        List.getElem_set_ne (fun he => hj he.symm)]
    · rw [List.getD_eq_default _ 0 (by rw [List.length_set]; omega),
        List.getD_eq_default _ 0 (by omega)]

theorem probeDist_spec {N home s : Nat} (hh : home < N) (hs : s < N) :
    (home + probeDist N home s) % N = s ∧ probeDist N home s < N := by
  have hN : 0 < N := by omega
  constructor
  · unfold probeDist
    by_cases hcase : home ≤ s
    · have h1 : (s + N - home) % N = s - home := by
        rw [show s + N - home = s - home + N by omega, Nat.add_mod_right]
        exact Nat.mod_eq_of_lt (by omega)
      rw [h1, show home + (s - home) = s by omega]
      exact Nat.mod_eq_of_lt hs
    · have h1 : (s + N - home) % N = s + N - home :=
        Nat.mod_eq_of_lt (by omega)
      rw [h1, show home + (s + N - home) = s + N by omega, Nat.add_mod_right]
      exact Nat.mod_eq_of_lt hs
  · exact Nat.mod_lt _ hN

theorem probeDist_add {N home k : Nat} (hh : home < N) (hk : k < N) :
    probeDist N home ((home + k) % N) = k := by
  unfold probeDist
  by_cases hc : home + k < N
  · rw [Nat.mod_eq_of_lt hc, show home + k + N - home = k + N by omega,
      Nat.add_mod_right]
    exact Nat.mod_eq_of_lt hk
  · have h2 : (home + k) % N = home + k - N := by
      rw [Nat.mod_eq_sub_mod (by omega)]
      exact Nat.mod_eq_of_lt (by omega)
    rw [h2, show home + k - N + N - home = k by omega]
    exact Nat.mod_eq_of_lt hk

theorem probeAux_ok_spec {found : List Nat} {N x : Nat} (hN : 0 < N) :
    ∀ fuel loc lc t, loc < N →
      probeAux found N x loc lc fuel = .ok t →
      ∃ k, t = (loc + k) % N ∧
        (∀ j, j < k → foundGet found ((loc + j) % N) ≠ 0 ∧
          foundGet found ((loc + j) % N) ≠ x) ∧
        (foundGet found t = 0 ∨ foundGet found t = x) ∧ t < N := by
  intro fuel
  induction fuel with
  | zero => intro loc lc t hloc heq; cases heq
  | succ fuel ih =>
      intro loc lc t hloc heq
      simp only [probeAux] at heq
      by_cases h0 : found.getD loc 0 ≠ 0
      · rw [if_pos h0] at heq
        by_cases hlc : lc > N
        · rw [if_pos hlc] at heq
          cases heq
        · rw [if_neg hlc] at heq
          by_cases hx : found.getD loc 0 = x
          · rw [if_pos hx] at heq
            cases heq
            refine ⟨0, ?_, by omega, Or.inr hx, hloc⟩
            rw [Nat.add_zero, Nat.mod_eq_of_lt hloc]
          · rw [if_neg hx] at heq
            obtain ⟨k, hk1, hk3, hk4, hk5⟩ :=
              ih ((loc + 1) % N) (lc + 1) t (Nat.mod_lt _ hN) heq
            refine ⟨k + 1, ?_, ?_, hk4, hk5⟩
            · rw [hk1, Nat.mod_add_mod]
              congr 1
              omega
            · intro j hj
              rcases Nat.eq_zero_or_pos j with hj0 | hjpos
              · subst hj0
                rw [Nat.add_zero, Nat.mod_eq_of_lt hloc]
                exact ⟨h0, hx⟩
              · have := hk3 (j - 1) (by omega)
                rw [Nat.mod_add_mod, show loc + 1 + (j - 1) = loc + j by omega]
                  at this
                exact this
      · rw [if_neg h0] at heq
        cases heq
        push_neg at h0
        refine ⟨0, ?_, by omega, Or.inl h0, hloc⟩
        rw [Nat.add_zero, Nat.mod_eq_of_lt hloc]

theorem probe_home_spec {found : List Nat} {N x t : Nat} (hN : 0 < N)
    (hok : probeAux found N x (x % N) 0 (N + 2) = .ok t) :
    ∃ k, k < N ∧ t = (x % N + k) % N ∧
      (∀ j, j < k → foundGet found ((x % N + j) % N) ≠ 0 ∧
        foundGet found ((x % N + j) % N) ≠ x) ∧
      (foundGet found t = 0 ∨ foundGet found t = x) ∧ t < N := by
  obtain ⟨k, h1, h3, h4, h5⟩ :=
    probeAux_ok_spec hN (N + 2) (x % N) 0 t (Nat.mod_lt _ hN) hok
  refine ⟨k, ?_, h1, h3, h4, h5⟩
  by_contra hk
  push_neg at hk
  have hj := h3 (k - N) (by omega)
  have hslot : (x % N + (k - N)) % N = (x % N + k) % N := by
    conv_rhs => rw [show x % N + k = x % N + (k - N) + N by omega]
    rw [Nat.add_mod_right]
  rw [hslot, ← h1] at hj
  rcases h4 with h | h
  · exact hj.1 h
  · exact hj.2 h

theorem probe_finds_present {found : List Nat} {N x t s : Nat} (hN : 0 < N)
    (hInv : TableInv N found) (hx : x ≠ 0) (hs : s < N)
    (hsx : foundGet found s = x)
    (hok : probeAux found N x (x % N) 0 (N + 2) = .ok t) :
    foundGet found t = x := by
  obtain ⟨k, hkN, ht, hclear, hdisj, htN⟩ := probe_home_spec hN hok
  have hhomeN : x % N < N := Nat.mod_lt _ hN
  obtain ⟨hdist, hdN⟩ := probeDist_spec hhomeN hs
  have hkd : k ≤ probeDist N (x % N) s := by
    by_contra hgt
    push_neg at hgt
    have hc := hclear (probeDist N (x % N) s) hgt
    rw [hdist] at hc
    exact hc.2 hsx
  rcases Nat.eq_or_lt_of_le hkd with he | hlt
  · rw [ht, he, hdist]
    exact hsx
  · have hcl := hInv.2 s hs (by rw [hsx]; exact hx)
    rw [hsx] at hcl
    have hnz := hcl k hlt
    rcases hdisj with h | h
    · rw [ht] at h
      exact absurd h hnz
    · exact h

theorem insertHex_spec {N : Nat} {found search : List Nat} {x : Nat}
    {f' s' : List Nat} (hN : 0 < N) (hlen : found.length = N)
    (hInv : TableInv N found)
    (hok : insertHex N found search x = .ok (f', s')) :
    f'.length = N ∧ TableInv N f' ∧
    ((f' = found ∧ s' = search ∧
        (∀ y, inTable N f' y ↔ inTable N found y)) ∨
      (s' = search ++ [x] ∧ x ≠ 0 ∧ ¬inTable N found x ∧
        (∀ y, y ≠ 0 → (inTable N f' y ↔ inTable N found y ∨ y = x)))) := by
  unfold insertHex at hok
  split at hok
  · cases hok
  · rename_i loc hprobe
    by_cases hskip : found.getD loc 0 = x
    · rw [if_pos hskip] at hok
      cases hok
      exact ⟨hlen, hInv, Or.inl ⟨rfl, rfl, fun y => Iff.rfl⟩⟩
    · rw [if_neg hskip] at hok
      cases hok
      obtain ⟨k, hkN, ht, hclear, hdisj, htN⟩ := probe_home_spec hN hprobe
      have hhomeN : x % N < N := Nat.mod_lt _ hN
      have hloc0 : foundGet found loc = 0 := by
        rcases hdisj with h | h
        · exact h
        · exact absurd h hskip
      have hx0 : x ≠ 0 := fun he => hskip (by rw [he]; exact hloc0)
      have hnotin : ¬inTable N found x := by
        rintro ⟨s, hs, hsx⟩
        have hfind := probe_finds_present hN hInv hx0 hs hsx hprobe
        exact hx0 (hfind.symm.trans hloc0)
      have hloclen : loc < found.length := by omega
      have hlen' : (found.set loc x).length = N := by
        rw [List.length_set]; exact hlen
      have hmem : ∀ y, y ≠ 0 →
          (inTable N (found.set loc x) y ↔ inTable N found y ∨ y = x) := by
        intro y hy
        constructor
        · rintro ⟨s, hs, hsy⟩
          rw [foundGet_set hloclen] at hsy
          by_cases hsl : s = loc
          · rw [if_pos hsl] at hsy
            exact Or.inr hsy.symm
          · rw [if_neg hsl] at hsy
            exact Or.inl ⟨s, hs, hsy⟩
        · rintro (⟨s, hs, hsy⟩ | hyx)
          · refine ⟨s, hs, ?_⟩
            rw [foundGet_set hloclen, if_neg ?_]
            · exact hsy
            · intro hsl
              subst hsl
              exact hy (hsy.symm.trans hloc0)
          · subst hyx
            exact ⟨loc, htN, by rw [foundGet_set hloclen, if_pos rfl]⟩
      refine ⟨hlen', ⟨?_, ?_⟩, Or.inr ⟨rfl, hx0, hnotin, hmem⟩⟩
      · -- pairwise distinct non-empty entries
        intro s hsn t' htn hst hs0
        rw [foundGet_set hloclen s] at hs0 ⊢
        rw [foundGet_set hloclen t']
        by_cases hsl : s = loc
        · rw [if_pos hsl] at hs0 ⊢
          by_cases htl : t' = loc
          · exact absurd (hsl.trans htl.symm) hst
          · rw [if_neg htl]
            intro he
            exact hnotin ⟨t', htn, he.symm⟩
        · rw [if_neg hsl] at hs0 ⊢
          by_cases htl : t' = loc
          · rw [if_pos htl]
            intro he
            exact hnotin ⟨s, hsn, he⟩
          · rw [if_neg htl]
            exact hInv.1 s hsn t' htn hst hs0
      · -- probe paths of stored values stay free of empty slots
        intro s hsn hs0 j hjd
        rw [foundGet_set hloclen s] at hs0 hjd ⊢
        by_cases hsl : s = loc
        · rw [if_pos hsl] at hs0 hjd ⊢
          have hdist : probeDist N (x % N) s = k := by
            rw [hsl, ht]
            exact probeDist_add hhomeN hkN
          rw [hdist] at hjd
          rw [foundGet_set hloclen]
          by_cases hjl : (x % N + j) % N = loc
          · rw [if_pos hjl]
            exact hx0
          · rw [if_neg hjl]
            exact (hclear j hjd).1
        · rw [if_neg hsl] at hs0 hjd ⊢
          have hold := hInv.2 s hsn hs0 j hjd
          rw [foundGet_set hloclen]
          by_cases hjl : (foundGet found s % N + j) % N = loc
          · rw [if_pos hjl]
            exact hx0
          · rw [if_neg hjl]
            exact hold

theorem insertSeq_spec {N : Nat} :
    ∀ (pts : List (Except H3Error Nat)) (found search f' s' : List Nat),
      0 < N → found.length = N → TableInv N found →
      insertSeq N pts found search = .ok (f', s') →
      f'.length = N ∧ TableInv N f' ∧
      ∃ app, s' = search ++ app ∧ app.Nodup ∧
        (∀ y ∈ app, y ≠ 0 ∧ ¬inTable N found y) ∧
        (∀ y, y ≠ 0 → (inTable N f' y ↔ inTable N found y ∨ y ∈ app)) := by
  intro pts
  induction pts with
  | nil =>
      intro found search f' s' hN hlen hInv hok
      simp only [insertSeq] at hok
      cases hok
      exact ⟨hlen, hInv, ⟨[], by simp, List.nodup_nil, by simp,
        fun y hy => by simp⟩⟩
  | cons p rest ih =>
      intro found search f' s' hN hlen hInv hok
      simp only [insertSeq] at hok
      split at hok
      · cases hok
      · rename_i x
        split at hok
        · cases hok
        · rename_i f1 s1 hins
          obtain ⟨hlen1, hInv1, hcase⟩ := insertHex_spec hN hlen hInv hins
          obtain ⟨hlen', hInv', app1, happ1, hnd1, hprops1, hiff1⟩ :=
            ih f1 s1 f' s' hN hlen1 hInv1 hok
          rcases hcase with ⟨hf1, hs1, hiff0⟩ | ⟨hs1, hx0, hnotin, hiff0⟩
          · subst hf1
            subst hs1
            exact ⟨hlen', hInv', ⟨app1, happ1, hnd1, hprops1, hiff1⟩⟩
          · refine ⟨hlen', hInv', ⟨x :: app1, ?_, ?_, ?_, ?_⟩⟩
            · rw [happ1, hs1]
              simp
            · rw [List.nodup_cons]
              refine ⟨?_, hnd1⟩
              intro hxin
              exact (hprops1 x hxin).2 ((hiff0 x hx0).mpr (Or.inr rfl))
            · intro y hy
              rcases List.mem_cons.mp hy with rfl | hy2
              · exact ⟨hx0, hnotin⟩
              · obtain ⟨hy0, hynot1⟩ := hprops1 y hy2
                exact ⟨hy0, fun hin => hynot1 ((hiff0 y hy0).mpr (Or.inl hin))⟩
            · intro y hy
              rw [hiff1 y hy, hiff0 y hy, List.mem_cons]
              tauto

theorem edgeRun_spec {α : Type} {N : Nat}
    (estimate : α → α → Except H3Error Nat)
    (cellOf : α → α → Nat → Nat → Except H3Error Nat) :
    ∀ (pairs : List (α × α)) (found search f' s' : List Nat),
      0 < N → found.length = N → TableInv N found →
      edgeRun estimate cellOf N pairs found search = .ok (f', s') →
      f'.length = N ∧ TableInv N f' ∧
      ∃ app, s' = search ++ app ∧ app.Nodup ∧
        (∀ y ∈ app, y ≠ 0 ∧ ¬inTable N found y) ∧
        (∀ y, y ≠ 0 → (inTable N f' y ↔ inTable N found y ∨ y ∈ app)) := by
  intro pairs
  induction pairs with
  | nil =>
      intro found search f' s' hN hlen hInv hok
      simp only [edgeRun] at hok
      cases hok
      exact ⟨hlen, hInv, ⟨[], by simp, List.nodup_nil, by simp,
        fun y hy => by simp⟩⟩
  | cons pr rest ih =>
      intro found search f' s' hN hlen hInv hok
      obtain ⟨o, d⟩ := pr
      simp only [edgeRun] at hok
      split at hok
      · cases hok
      · rename_i n
        split at hok
        · cases hok
        · rename_i f1 s1 hins
          obtain ⟨hlen1, hInv1, app1, happ1, hnd1, hprops1, hiff1⟩ :=
            insertSeq_spec _ found search f1 s1 hN hlen hInv hins
          obtain ⟨hlen', hInv', app2, happ2, hnd2, hprops2, hiff2⟩ :=
            ih f1 s1 f' s' hN hlen1 hInv1 hok
          refine ⟨hlen', hInv', ⟨app1 ++ app2, ?_, ?_, ?_, ?_⟩⟩
          · rw [happ2, happ1, List.append_assoc]
          · refine hnd1.append hnd2 (List.disjoint_left.mpr ?_)
            intro a ha1 ha2
            obtain ⟨ha0, hanot2⟩ := hprops2 a ha2
            exact hanot2 ((hiff1 a ha0).mpr (Or.inr ha1))
          · intro y hy
            rcases List.mem_append.mp hy with hy1 | hy2
            · exact hprops1 y hy1
            · obtain ⟨hy0, hynot1⟩ := hprops2 y hy2
              exact ⟨hy0, fun hin => hynot1 ((hiff1 y hy0).mpr (Or.inl hin))⟩
          · intro y hy
            rw [hiff2 y hy, hiff1 y hy, List.mem_append]
            tauto

/-- C8: on every successful call to `_getEdgeHexagons` (starting from a found
    table satisfying the open-addressing invariant, e.g. the caller's zeroed
    block), the cells appended to the search buffer are pairwise distinct:
    a cell already present in the found hash set is skipped and never
    appended a second time, and the search counter grows by exactly one per
    distinct newly inserted cell — the appended list enumerates the newly
    inserted cells without repetition. -/
theorem getEdgeHexagons_dedup {α : Type}
    (estimate : α → α → Except H3Error Nat)
    (cellOf : α → α → Nat → Nat → Except H3Error Nat) (verts : List α)
    (numHexagons : Nat) (found search f' s' : List Nat)
    (hN : 0 < numHexagons) (hlen : found.length = numHexagons)
    (hInv : TableInv numHexagons found)
    (hok : _getEdgeHexagons estimate cellOf verts numHexagons found search =
      .ok (f', s')) :
    ∃ app, s' = search ++ app ∧ app.Nodup ∧
      (∀ y ∈ app, y ≠ 0 ∧ ¬inTable numHexagons found y ∧
        inTable numHexagons f' y) ∧
      (∀ y, y ≠ 0 →
        (inTable numHexagons f' y ↔ inTable numHexagons found y ∨ y ∈ app)) := by
  obtain ⟨hlen', hInv', app, happ, hnd, hprops, hiff⟩ :=
    edgeRun_spec estimate cellOf (edgePairs verts) found search f' s' hN hlen
      hInv hok
  refine ⟨app, happ, hnd, ?_, hiff⟩
  intro y hy
  obtain ⟨hy0, hynot⟩ := hprops y hy
  exact ⟨hy0, hynot, (hiff y hy0).mpr (Or.inr hy)⟩

theorem foundGet_replicate_zero (n s : Nat) :
    foundGet (List.replicate n 0) s = 0 := by
  unfold foundGet
  by_cases h : s < n
  · rw [List.getD_eq_getElem _ _ (by simpa using h)]
    simp
  · rw [List.getD_eq_default _ _ (by simpa using h)]

theorem TableInv_replicate_zero (N n : Nat) :
    TableInv N (List.replicate n 0) := by
  constructor
  · intro s hsn t htn hst hs0
    exact absurd (foundGet_replicate_zero n s) hs0
  · intro s hsn hs0
    exact absurd (foundGet_replicate_zero n s) hs0

/-- Witness for C8: the dedup theorem applied to a concrete trace of a
    two-vertex loop into a zeroed 7-slot table; the facts below are read off
    the instantiated conclusion. -/
theorem getEdgeHexagons_dedup_witness :
    _getEdgeHexagons (fun _ _ => .ok 2)
      (fun o _ _ j => .ok (o + j) : Nat → Nat → Nat → Nat → Except H3Error Nat)
      [10, 20] 7 (List.replicate 7 0) [] =
      .ok ([21, 0, 0, 10, 11, 0, 20], [10, 11, 20, 21]) ∧
    ([10, 11, 20, 21] : List Nat).Nodup ∧
    ¬inTable 7 (List.replicate 7 0) 10 ∧
    inTable 7 [21, 0, 0, 10, 11, 0, 20] 10 := by
  have hcall : _getEdgeHexagons (fun _ _ => .ok 2)
      (fun o _ _ j => .ok (o + j) : Nat → Nat → Nat → Nat → Except H3Error Nat)
      [10, 20] 7 (List.replicate 7 0) [] =
      .ok ([21, 0, 0, 10, 11, 0, 20], [10, 11, 20, 21]) := by decide
  obtain ⟨app, happ, hnd, hprops, hiff⟩ :=
    getEdgeHexagons_dedup (fun _ _ => .ok 2)
      (fun o _ _ j => .ok (o + j) : Nat → Nat → Nat → Nat → Except H3Error Nat)
      [10, 20] 7 (List.replicate 7 0) [] [21, 0, 0, 10, 11, 0, 20]
      [10, 11, 20, 21] (by decide) (by decide) (TableInv_replicate_zero 7 7)
      hcall
  have happ' : app = [10, 11, 20, 21] := by simpa using happ.symm
  subst happ'
  have h10 := hprops 10 (by decide)
  exact ⟨hcall, hnd, h10.2.1, h10.2.2⟩

end H3Spec
